import Mathlib

/-!
# Verification of the mdx-m3-viewer parsing/serialization core

A shallow embedding of the binary/text stream layer and of the record
types of the mdx-m3-viewer repository, together with proofs settling the
frozen claims about them.

Conventions of the embedding:

* JS strings that travel through binary streams are lists of character
  codes (`List Nat`); one code unit becomes one byte via truncation
  modulo 256, exactly as storing `charCodeAt` into a `Uint8Array` does.
* 32-bit float slots (`Float32Array` entries) are represented by their
  32-bit bit patterns (`Nat`), since serialization only moves the four
  bytes of the pattern; no floating-point arithmetic is modelled.
* The byte-conversion helpers of `typecast.js` are not present under
  `src/`; they are modelled from the spec ("little-endian fixed-width
  reads/writes") as the standard little-endian two's-complement codecs.
-/

namespace MdxViewer

/-! ## Byte codecs (modelled from the spec: `typecast.js` is absent from
`src/`; per the spec all fixed-width values are little-endian, signed
values two's complement). -/

/-- Combine two little-endian bytes into an unsigned 16-bit value
(`uint8ToUint16`). -/
def uint8ToUint16 (b0 b1 : Nat) : Nat :=
  b0 + 256 * b1

/-- Combine four little-endian bytes into an unsigned 32-bit value
(`uint8ToUint32`). -/
def uint8ToUint32 (b0 b1 b2 b3 : Nat) : Nat :=
  b0 + 256 * b1 + 65536 * b2 + 16777216 * b3

/-- Interpret an unsigned 16-bit value as a signed one. -/
def toSigned16 (u : Nat) : Int :=
  if u < 32768 then (u : Int) else (u : Int) - 65536

/-- Interpret an unsigned 32-bit value as a signed one. -/
def toSigned32 (u : Nat) : Int :=
  if u < 2147483648 then (u : Int) else (u : Int) - 4294967296

/-- Combine two little-endian bytes into a signed 16-bit value
(`uint8ToInt16`). -/
def uint8ToInt16 (b0 b1 : Nat) : Int :=
  toSigned16 (uint8ToUint16 b0 b1)

/-- Combine four little-endian bytes into a signed 32-bit value
(`uint8ToInt32`). -/
def uint8ToInt32 (b0 b1 b2 b3 : Nat) : Int :=
  toSigned32 (uint8ToUint32 b0 b1 b2 b3)

/-- Decompose an unsigned 32-bit value into its four little-endian bytes
(`uint32ToUint8`). -/
def uint32ToBytes (v : Nat) : List Nat :=
  [v % 256, v / 256 % 256, v / 65536 % 256, v / 16777216 % 256]

/-- Decompose a signed 32-bit value into its four little-endian
two's-complement bytes (`int32ToUint8`). -/
def int32ToBytes (v : Int) : List Nat :=
  uint32ToBytes (v.emod 4294967296).toNat

/-! ## The binary cursor stream (`BinaryStream`, `src/unnamed/part_000`)

The constructor stores five things: the backing `ArrayBuffer`, a
`Uint8Array` view `new Uint8Array(buffer, byteOffset, byteLength)`, the
cursor `index = 0`, and `byteLength = buffer.byteLength`.  `RawBinaryStream`
below embeds that constructor verbatim (the view is kept as its offset and
length into the shared backing buffer); it is what the `substream` claim is
about.

Every stream on which the repository's loaders and savers perform byte
access is created as `new BinaryStream(buffer)` — offset `0` and a view of
the whole buffer — so the byte-access operations are embedded over the
flattened form `BinaryStream` (the view's bytes plus the cursor), which
coincides with the raw form whenever `byteOffset = 0` and the view spans
the whole buffer. -/

/-- The five member fields the `BinaryStream` constructor assigns, with the
`Uint8Array` view represented by its offset and length into the shared
backing buffer.  Note `byteLength` is assigned `buffer.byteLength` — the
length of the whole backing buffer. -/
structure RawBinaryStream where
  buffer : List Nat
  viewOffset : Nat
  viewLength : Nat
  index : Nat
  byteLength : Nat
  deriving Repr, DecidableEq

/-- `new BinaryStream(buffer, byteOffset, byteLength)` on a plain
`ArrayBuffer` argument. -/
def mkBinaryStream (buffer : List Nat) (byteOffset byteLength : Nat) :
    RawBinaryStream :=
  { buffer := buffer
    viewOffset := byteOffset
    viewLength := byteLength
    index := 0
    byteLength := buffer.length }

/-- `substream(byteLength)`: a subreader over the same backing buffer, at
the parent's position, with the given view byte length. -/
def RawBinaryStream.substream (s : RawBinaryStream) (byteLength : Nat) :
    RawBinaryStream :=
  mkBinaryStream s.buffer s.index byteLength

/-- `remaining()` of a raw stream: `byteLength - index`. -/
def RawBinaryStream.remaining (s : RawBinaryStream) : Nat :=
  s.byteLength - s.index

/-- `skip(bytes)` on a raw stream. -/
def RawBinaryStream.skip (s : RawBinaryStream) (bytes : Nat) : RawBinaryStream :=
  { s with index := s.index + bytes }

/-- The flattened stream all loaders and savers operate on: the bytes of
the (whole-buffer) `Uint8Array` view and the cursor. -/
structure BinaryStream where
  data : List Nat
  index : Nat
  deriving Repr, DecidableEq

namespace BinaryStream

/-- `new BinaryStream(buffer)` over a whole buffer. -/
def mk0 (data : List Nat) : BinaryStream :=
  ⟨data, 0⟩

/-- `uint8array[i]` (in-range accesses only are ever relied upon; the JS
out-of-range access yields `undefined`, rendered here as `0`). -/
def u8 (s : BinaryStream) (i : Nat) : Nat :=
  s.data.getD i 0

/-- `remaining()`. -/
def remaining (s : BinaryStream) : Nat :=
  s.data.length - s.index

/-- `skip(bytes)`. -/
def skip (s : BinaryStream) (bytes : Nat) : BinaryStream :=
  { s with index := s.index + bytes }

/-- `peek(size, allowNulls)`: map each of the `size` bytes at the cursor to
one character code, dropping zero bytes unless `allowNulls`. -/
def peek (s : BinaryStream) (size : Nat) (allowNulls : Bool) : List Nat :=
  ((List.range size).map (fun i => s.u8 (s.index + i))).filter
    (fun b => allowNulls || decide (0 < b))

/-- `read(size, allowNulls)`.  The source runs `size = size || this.remaining()`,
so a zero (or absent) `size` argument defaults to everything remaining. -/
def read (s : BinaryStream) (size : Nat) (allowNulls : Bool) :
    List Nat × BinaryStream :=
  let sz := if size = 0 then s.remaining else size
  (s.peek sz allowNulls, s.skip sz)

/-- `peekUntilNull()`: the bytes at the cursor up to (excluding) the first
zero byte. -/
def peekUntilNull (s : BinaryStream) : List Nat :=
  (s.data.drop s.index).takeWhile (fun b => b ≠ 0)

/-- `readUntilNull()`: advances past the terminator as well. -/
def readUntilNull (s : BinaryStream) : List Nat × BinaryStream :=
  let data := s.peekUntilNull
  (data, s.skip (data.length + 1))

/-- `readUint8()`. -/
def readUint8 (s : BinaryStream) : Nat × BinaryStream :=
  (s.u8 s.index, s.skip 1)

/-- `readUint16()`. -/
def readUint16 (s : BinaryStream) : Nat × BinaryStream :=
  (uint8ToUint16 (s.u8 s.index) (s.u8 (s.index + 1)), s.skip 2)

/-- `readUint32()`. -/
def readUint32 (s : BinaryStream) : Nat × BinaryStream :=
  (uint8ToUint32 (s.u8 s.index) (s.u8 (s.index + 1)) (s.u8 (s.index + 2))
    (s.u8 (s.index + 3)), s.skip 4)

/-- `readInt16()`. -/
def readInt16 (s : BinaryStream) : Int × BinaryStream :=
  (uint8ToInt16 (s.u8 s.index) (s.u8 (s.index + 1)), s.skip 2)

/-- `readInt32()`. -/
def readInt32 (s : BinaryStream) : Int × BinaryStream :=
  (uint8ToInt32 (s.u8 s.index) (s.u8 (s.index + 1)) (s.u8 (s.index + 2))
    (s.u8 (s.index + 3)), s.skip 4)

/-- `readInt32Array(n)` on a fresh `Int32Array(n)`: the source computes the
`i`-th element as `uint8ToInt16(u[o], u[o+1], u[o+2], u[o+3])` at
`o = index + i*4` — JavaScript ignores the two extra arguments, so each
element is the signed 16-bit combination of the first two of its four
bytes — and then advances the cursor by `view.byteLength = 4*n`. -/
def readInt32Array (s : BinaryStream) (n : Nat) : List Int × BinaryStream :=
  ((List.range n).map
      (fun i => uint8ToInt16 (s.u8 (s.index + i * 4)) (s.u8 (s.index + i * 4 + 1))),
    s.skip (n * 4))

/-- One `Uint8Array` store at view position `i` (out-of-range stores are
dropped, as in JS; the stored value is truncated modulo 256). -/
def setU8 (s : BinaryStream) (i : Nat) (v : Nat) : BinaryStream :=
  { s with data := s.data.set i (v % 256) }

/-- Store a list of bytes at the cursor, advancing it; each fixed-width
`write*` of the source decomposes its value into little-endian bytes,
stores them at `index`, `index+1`, … and advances the cursor by the byte
width, which is exactly this iteration. -/
def writeBytes : BinaryStream → List Nat → BinaryStream
  | s, [] => s
  | s, b :: bs => writeBytes { (s.setU8 s.index b) with index := s.index + 1 } bs

/-- `write(value)`: one byte per character code of the string. -/
def write (s : BinaryStream) (value : List Nat) : BinaryStream :=
  s.writeBytes value

/-- `writeUint32(value)`. -/
def writeUint32 (s : BinaryStream) (value : Nat) : BinaryStream :=
  s.writeBytes (uint32ToBytes value)

/-- `writeInt32(value)`. -/
def writeInt32 (s : BinaryStream) (value : Int) : BinaryStream :=
  s.writeBytes (int32ToBytes value)

/-- `writeFloat32Array(view)` with float slots carried as bit patterns:
four little-endian bytes per element. -/
def writeFloat32Array (s : BinaryStream) (view : List Nat) : BinaryStream :=
  s.writeBytes (view.map uint32ToBytes).flatten

/-- `writeInt32Array(view)`. -/
def writeInt32Array (s : BinaryStream) (view : List Int) : BinaryStream :=
  s.writeBytes (view.map int32ToBytes).flatten

/-- `writeUint8Array(view)`. -/
def writeUint8Array (s : BinaryStream) (view : List Nat) : BinaryStream :=
  s.writeBytes view

/-- `writeFloat32(value)` with the float slot carried as a bit pattern. -/
def writeFloat32 (s : BinaryStream) (value : Nat) : BinaryStream :=
  s.writeBytes (uint32ToBytes value)

end BinaryStream

/-! ## `war3map.w3i` (`src/src/parsers/w3x/war3map.w3i/file.js`)

The sub-record types `Player`, `Force`, `UpgradeAvailabilityChange`,
`TechAvailabilityChange`, `RandomUnitTable` and `RandomItemTable` live in
sibling files that are not under `src/`.  Modelled from the spec: every
record type's `save(stream)` writes its serialized bytes and its
`getByteLength()` returns their exact count ("for every record type R,
`getByteLength(version) == length(save(R, version))`"), so each of these
sub-records is modelled by its serialized byte payload; where `file.js`
itself fixes a size (`16` per upgrade change, `8` per tech change) the
claims carry that as a hypothesis. -/

/-- Modelled from the spec: a `Player` record, represented by the bytes its
`save` emits. -/
structure Player where
  payload : List Nat
  deriving Repr, DecidableEq

/-- Modelled from the spec: a `Force` record, as its serialized bytes. -/
structure Force where
  payload : List Nat
  deriving Repr, DecidableEq

/-- Modelled from the spec: an `UpgradeAvailabilityChange` record, as its
serialized bytes (16 of them, per `file.js`'s byte accounting). -/
structure UpgradeAvailabilityChange where
  payload : List Nat
  deriving Repr, DecidableEq

/-- Modelled from the spec: a `TechAvailabilityChange` record, as its
serialized bytes (8 of them, per `file.js`'s byte accounting). -/
structure TechAvailabilityChange where
  payload : List Nat
  deriving Repr, DecidableEq

/-- Modelled from the spec: a `RandomUnitTable` record, as its serialized
bytes. -/
structure RandomUnitTable where
  payload : List Nat
  deriving Repr, DecidableEq

/-- Modelled from the spec: a `RandomItemTable` record, as its serialized
bytes. -/
structure RandomItemTable where
  payload : List Nat
  deriving Repr, DecidableEq

def Player.getByteLength (p : Player) : Nat := p.payload.length

def Force.getByteLength (f : Force) : Nat := f.payload.length

def RandomUnitTable.getByteLength (t : RandomUnitTable) : Nat := t.payload.length

def RandomItemTable.getByteLength (t : RandomItemTable) : Nat := t.payload.length

/-- The `war3map.w3i` map-information record.  String fields are lists of
character codes; `Float32Array` slots are 32-bit patterns. -/
structure War3MapW3i where
  version : Int
  saves : Int
  editorVersion : Int
  name : List Nat
  author : List Nat
  description : List Nat
  recommendedPlayers : List Nat
  cameraBounds : List Nat
  cameraBoundsComplements : List Int
  playableSize : List Int
  flags : Nat
  tileset : List Nat
  campaignBackground : Int
  loadingScreenModel : List Nat
  loadingScreenText : List Nat
  loadingScreenTitle : List Nat
  loadingScreenSubtitle : List Nat
  loadingScreen : Int
  prologueScreenModel : List Nat
  prologueScreenText : List Nat
  prologueScreenTitle : List Nat
  prologueScreenSubtitle : List Nat
  useTerrainFog : Int
  fogHeight : List Nat
  fogDensity : Nat
  fogColor : List Nat
  globalWeather : Int
  soundEnvironment : List Nat
  lightEnvironmentTileset : List Nat
  waterVertexColor : List Nat
  players : List Player
  forces : List Force
  upgradeAvailabilityChanges : List UpgradeAvailabilityChange
  techAvailabilityChanges : List TechAvailabilityChange
  randomUnitTables : List RandomUnitTable
  randomItemTables : List RandomItemTable
  deriving Repr, DecidableEq

/-- `War3MapW3i.getByteLength()`, translated clause by clause. -/
def War3MapW3i.getByteLength (m : War3MapW3i) : Nat :=
  let size := 111 + m.name.length + m.author.length + m.description.length
    + m.recommendedPlayers.length + m.loadingScreenText.length
    + m.loadingScreenTitle.length + m.loadingScreenSubtitle.length
    + m.prologueScreenText.length + m.prologueScreenTitle.length
    + m.prologueScreenSubtitle.length
  let size := m.players.foldl (fun n p => n + p.getByteLength) size
  let size := m.forces.foldl (fun n f => n + f.getByteLength) size
  let size := size + m.upgradeAvailabilityChanges.length * 16
  let size := size + m.techAvailabilityChanges.length * 8
  let size := m.randomUnitTables.foldl (fun n t => n + t.getByteLength) size
  let size :=
    if 24 < m.version then
      m.randomItemTables.foldl (fun n t => n + t.getByteLength)
        (size + 36 + m.loadingScreenModel.length + m.prologueScreenModel.length
          + m.soundEnvironment.length)
    else size
  size

/-- `War3MapW3i.save()`: allocates a buffer of `getByteLength()` bytes and
writes every field in source order, gating the optional fields on
`version > 24`. -/
def War3MapW3i.save (m : War3MapW3i) : BinaryStream :=
  let s := BinaryStream.mk0 (List.replicate m.getByteLength 0)
  let s := s.writeInt32 m.version
  let s := s.writeInt32 m.saves
  let s := s.writeInt32 m.editorVersion
  let s := s.write (m.name ++ [0])
  let s := s.write (m.author ++ [0])
  let s := s.write (m.description ++ [0])
  let s := s.write (m.recommendedPlayers ++ [0])
  let s := s.writeFloat32Array m.cameraBounds
  let s := s.writeInt32Array m.cameraBoundsComplements
  let s := s.writeInt32Array m.playableSize
  let s := s.writeUint32 m.flags
  let s := s.write m.tileset
  let s := s.writeInt32 m.campaignBackground
  let s := if 24 < m.version then s.write (m.loadingScreenModel ++ [0]) else s
  let s := s.write (m.loadingScreenText ++ [0])
  let s := s.write (m.loadingScreenTitle ++ [0])
  let s := s.write (m.loadingScreenSubtitle ++ [0])
  let s := s.writeInt32 m.loadingScreen
  let s := if 24 < m.version then s.write (m.prologueScreenModel ++ [0]) else s
  let s := s.write (m.prologueScreenText ++ [0])
  let s := s.write (m.prologueScreenTitle ++ [0])
  let s := s.write (m.prologueScreenSubtitle ++ [0])
  let s :=
    if 24 < m.version then
      let s := s.writeInt32 m.useTerrainFog
      let s := s.writeFloat32Array m.fogHeight
      let s := s.writeFloat32 m.fogDensity
      let s := s.writeUint8Array m.fogColor
      let s := s.writeInt32 m.globalWeather
      let s := s.write (m.soundEnvironment ++ [0])
      let s := s.write m.lightEnvironmentTileset
      s.writeUint8Array m.waterVertexColor
    else s
  let s := s.writeUint32 m.players.length
  let s := m.players.foldl (fun s p => s.writeBytes p.payload) s
  let s := s.writeUint32 m.forces.length
  let s := m.forces.foldl (fun s f => s.writeBytes f.payload) s
  let s := s.writeUint32 m.upgradeAvailabilityChanges.length
  let s := m.upgradeAvailabilityChanges.foldl (fun s c => s.writeBytes c.payload) s
  let s := s.writeUint32 m.techAvailabilityChanges.length
  let s := m.techAvailabilityChanges.foldl (fun s c => s.writeBytes c.payload) s
  let s := s.writeUint32 m.randomUnitTables.length
  let s := m.randomUnitTables.foldl (fun s t => s.writeBytes t.payload) s
  let s :=
    if 24 < m.version then
      (m.randomItemTables.foldl (fun s t => s.writeBytes t.payload)
        (s.writeUint32 m.randomItemTables.length))
    else s
  s

/-! ## `war3map.wct` (`src/src/parsers/w3x/war3map.wct/file.js`)

`CustomTextTrigger` lives in a sibling file that is not under `src/`.
Modelled from the spec: a nested record is an abstract value together with
its serialization — the definitions below are parametric in the trigger
type `CTT` and in `payload : CTT → List Nat`, the bytes its `save` emits
(its `getByteLength` being their count, per the spec's byte-length
contract); loading is parametric in a `parse` function whose round-trip
property the relevant claims carry as a hypothesis. -/

/-- The custom-text-trigger file. -/
structure War3MapWct (CTT : Type) where
  version : Int
  comment : List Nat
  trigger : Option CTT
  triggers : List CTT
  deriving Repr, DecidableEq

namespace War3MapWct

variable {CTT : Type}

/-- `War3MapWct.getByteLength()`.  On a `version === 1` file with a null
`trigger` the source would throw (`null.getByteLength()`); the model takes
the trigger's contribution as `0` there, and every statement about the
version-1 branch hypothesizes a non-null trigger. -/
def getByteLength (payload : CTT → List Nat) (w : War3MapWct CTT) : Nat :=
  let size := 8
  let size :=
    if w.version = 1 then
      size + w.comment.length + 1 + ((w.trigger.map payload).getD []).length
    else size
  w.triggers.foldl (fun n t => n + (payload t).length) size

/-- `War3MapWct.save()`: allocate `getByteLength()` bytes, write the
version, on version 1 the comment (null-terminated) and the single
trigger, then the trigger count and the triggers. -/
def save (payload : CTT → List Nat) (w : War3MapWct CTT) : BinaryStream :=
  let s := BinaryStream.mk0 (List.replicate (getByteLength payload w) 0)
  let s := s.writeInt32 w.version
  let s :=
    if w.version = 1 then
      (s.write (w.comment ++ [0])).writeBytes ((w.trigger.map payload).getD [])
    else s
  let s := s.writeUint32 w.triggers.length
  w.triggers.foldl (fun s t => s.writeBytes (payload t)) s

/-- Read `count` consecutive `CustomTextTrigger`s
(`for (let i = 0, l = …; i < l; i++) this.triggers[i] = new CustomTextTrigger(stream)`). -/
def loadTriggers (parse : BinaryStream → CTT × BinaryStream) :
    Nat → BinaryStream → List CTT × BinaryStream
  | 0, s => ([], s)
  | n + 1, s =>
      let (t, s) := parse s
      let (ts, s) := loadTriggers parse n s
      (t :: ts, s)

/-- `War3MapWct.load(buffer)` starting from a freshly constructed object
(version `0`, empty comment, null trigger, no triggers). -/
def load (parse : BinaryStream → CTT × BinaryStream) (buffer : List Nat) :
    War3MapWct CTT :=
  let s := BinaryStream.mk0 buffer
  let (version, s) := s.readInt32
  let (comment, trigger, s) :=
    if version = 1 then
      let (comment, s) := s.readUntilNull
      let (t, s) := parse s
      (comment, some t, s)
    else ([], none, s)
  let (count, s) := s.readUint32
  let (triggers, _) := loadTriggers parse count s
  { version := version, comment := comment, trigger := trigger,
    triggers := triggers }

end War3MapWct

/-! ## `Texture` (`src/src/parsers/mdlx/texture.js`), binary side -/

/-- An MDX texture reference. -/
structure Texture where
  replaceableId : Nat
  path : List Nat
  flags : Nat
  deriving Repr, DecidableEq

/-- `Texture.writeMdx(stream)`: the id, the path bytes, a skip over the
rest of the fixed 260-byte path field (the skip writes nothing — the
surrounding `save` hands `writeMdx` a freshly allocated zero buffer), and
the flags. -/
def Texture.writeMdx (t : Texture) (s : BinaryStream) : BinaryStream :=
  let s := s.writeUint32 t.replaceableId
  let s := s.write t.path
  let s := s.skip (260 - t.path.length)
  s.writeUint32 t.flags

/-- `Texture.readMdx(stream)`. -/
def Texture.readMdx (s : BinaryStream) : Texture × BinaryStream :=
  let (replaceableId, s) := s.readUint32
  let (path, s) := s.read 260 false
  let (flags, s) := s.readUint32
  (⟨replaceableId, path, flags⟩, s)

/-! ## The text token stream (`src/src/common/tokenstream.js`)

The buffer is a list of characters; `read()` is embedded as `readAux`,
which scans the un-consumed suffix and returns the token (if any) together
with the number of characters consumed — the source's `this.index--`
push-back before returning a pending token shows up as one fewer consumed
character. -/

/-- The `{` character (written via its code). -/
def lbrace : Char := Char.ofNat 123

/-- The `}` character (written via its code). -/
def rbrace : Char := Char.ofNat 125

/-- The single-pass scanner of `TokenStream.read`, over the un-consumed
suffix.  Returns the token (`none` when the `while` loop runs off the end
of the buffer) and the number of characters consumed. -/
def readAux : List Char → Bool → Bool → List Char → Option (List Char) × Nat
  | [], _, _, _ => (none, 0)
  | c :: cs, inComment, inString, token =>
    if inComment then
      let r := readAux cs (¬(c = '\n')) inString token
      (r.1, r.2 + 1)
    else if inString then
      if c = '"' then (some token, 1)
      else
        let r := readAux cs inComment true (token ++ [c])
        (r.1, r.2 + 1)
    else if c = ' ' ∨ c = ',' ∨ c = '\t' ∨ c = '\n' ∨ c = ':' ∨ c = '\r' then
      if token = [] then
        let r := readAux cs inComment inString token
        (r.1, r.2 + 1)
      else (some token, 1)
    else if c = lbrace ∨ c = rbrace then
      if token = [] then (some [c], 1)
      else (some token, 0)
    else if c = '/' ∧ cs.head? = some '/' then
      if token = [] then
        let r := readAux cs true inString token
        (r.1, r.2 + 1)
      else (some token, 0)
    else if c = '"' then
      if token = [] then
        let r := readAux cs inComment true token
        (r.1, r.2 + 1)
      else (some token, 0)
    else
      let r := readAux cs inComment inString (token ++ [c])
      (r.1, r.2 + 1)

/-- The text token stream: a character buffer, the cursor, and the
write-side indentation counter. -/
structure TokenStream where
  buffer : List Char
  index : Nat
  ident : Nat
  deriving Repr, DecidableEq

namespace TokenStream

/-- `new TokenStream(buffer)`. -/
def mk0 (buffer : List Char) : TokenStream :=
  ⟨buffer, 0, 0⟩

/-- `TokenStream.read()`. -/
def read (s : TokenStream) : Option (List Char) × TokenStream :=
  let r := readAux (s.buffer.drop s.index) false false []
  (r.1, { s with index := s.index + r.2 })

/-- `readFloat()` with the host `parseFloat` abstracted (it is a JS
builtin, not repository code): apply the given scalar parser to the next
token. -/
def readFloat {α : Type} (parseF : List Char → α) (s : TokenStream) :
    α × TokenStream :=
  let (tok, s') := s.read
  (parseF (tok.getD []), s')

/-- `readColor(view)`: consume `{`, three floats stored into indices 2, 1,
0 of the view (returned here as the triple `(view[0], view[1], view[2])`),
and `}`. -/
def readColor {α : Type} (parseF : List Char → α) (s : TokenStream) :
    (α × α × α) × TokenStream :=
  let (_, s) := s.read
  let (c2, s) := readFloat parseF s
  let (c1, s) := readFloat parseF s
  let (c0, s) := readFloat parseF s
  let (_, s) := s.read
  ((c0, c1, c2), s)

/-- `writeLine(line)`: current indentation, the line, a newline. -/
def writeLine (s : TokenStream) (line : List Char) : TokenStream :=
  { s with buffer := s.buffer ++ List.replicate s.ident '\t' ++ line ++ ['\n'] }

/-- The characters of the line body `writeColor` emits after the name:
`-- { v2, v1, v0 },` with the given scalar printer. -/
def colorBody {α : Type} (numToStr : α → List Char) (view : α × α × α) :
    List Char :=
  lbrace :: ' ' :: (numToStr view.2.2 ++ ',' :: ' ' :: numToStr view.2.1
    ++ ',' :: ' ' :: numToStr view.1 ++ ' ' :: rbrace :: [','])

/-- `writeColor(name, view)`: one line `name { view[2], view[1], view[0] },`
with the host number-to-string conversion abstracted. -/
def writeColor {α : Type} (numToStr : α → List Char) (s : TokenStream)
    (name : List Char) (view : α × α × α) : TokenStream :=
  s.writeLine (name ++ ' ' :: colorBody numToStr view)

end TokenStream

/-- The delimiter characters `read()` never emits: whitespace, comma,
colon. -/
def delimChar (c : Char) : Prop :=
  c = ' ' ∨ c = ',' ∨ c = '\t' ∨ c = '\n' ∨ c = ':' ∨ c = '\r'

instance (c : Char) : Decidable (delimChar c) := by
  unfold delimChar
  infer_instance

/-- A character that can sit inside an unquoted token: not a delimiter,
not a brace, not a quote. -/
def plainChar (c : Char) : Prop :=
  ¬delimChar c ∧ ¬(c = lbrace) ∧ ¬(c = rbrace) ∧ ¬(c = '"')

instance (c : Char) : Decidable (plainChar c) := by
  unfold plainChar
  infer_instance

/-! ## MDL text loaders (`texture.js` `readMdl`, `camera.js` `readMdl`)

`readBlock()` is a generator that reads tokens until `}`; when the input
runs out, `read()` yields `undefined`, which falls through every
recognized-token test and hits the throwing `else` with the text
`undefined`.  The `for…of` loops are embedded with explicit fuel (the JS
loops are bounded by the input length since every reported token consumes
input; the claims below only ever need one iteration, so they are stated
over `fuel + 1`).  `parseInt`/`parseFloat` and
`AnimatedObject.readAnimation` (whose file is not under `src/`) are
abstract parameters. -/

/-- The message of `throw new Error` in `Texture.readMdl`. -/
def textureErrMsg (tok : List Char) : String :=
  String.mk ("Unknown token in Texture: ".toList ++ '"' :: tok ++ ['"'])

/-- The token `read()` hands the error interpolation when it signals
end-of-input: JS stringifies `undefined`. -/
def undefinedTok : List Char := "undefined".toList

/-- The dispatch loop of `Texture.readMdl` over the tokens of one block. -/
def texReadMdlLoop (parseI : List Char → Nat) :
    Nat → Texture → TokenStream → Except String (Texture × TokenStream)
  | 0, _, _ => .error "out of fuel"
  | fuel + 1, t, s =>
    let (tok, s) := s.read
    match tok with
    | none => .error (textureErrMsg undefinedTok)
    | some token =>
      if token = [rbrace] then .ok (t, s)
      else if token = "Image".toList then
        let (tok2, s) := s.read
        texReadMdlLoop parseI fuel
          { t with path := (tok2.getD []).map Char.toNat } s
      else if token = "ReplaceableId".toList then
        let (tok2, s) := s.read
        texReadMdlLoop parseI fuel
          { t with replaceableId := parseI (tok2.getD []) } s
      else if token = "WrapWidth".toList then
        texReadMdlLoop parseI fuel { t with flags := t.flags ||| 1 } s
      else if token = "WrapHeight".toList then
        texReadMdlLoop parseI fuel { t with flags := t.flags ||| 2 } s
      else .error (textureErrMsg token)

/-- `Texture.readMdl(stream)`: iterate over the block
(`readBlock` first consumes the opening `{`). -/
def texReadMdl (parseI : List Char → Nat) (fuel : Nat) (t : Texture)
    (s : TokenStream) : Except String (Texture × TokenStream) :=
  let (_, s) := s.read
  texReadMdlLoop parseI fuel t s

/-- An MDL camera; float slots carried as patterns produced by the
abstract scalar parser. -/
structure Camera where
  name : List Char
  position : List Nat
  fieldOfView : Nat
  farClippingPlane : Nat
  nearClippingPlane : Nat
  targetPosition : List Nat
  deriving Repr, DecidableEq

/-- `readFloatArray(view)` on a 3-slot view: `{`, three floats, `}`. -/
def readFloatArray3 (parseF : List Char → Nat) (s : TokenStream) :
    List Nat × TokenStream :=
  let (_, s) := s.read
  let (v0, s) := TokenStream.readFloat parseF s
  let (v1, s) := TokenStream.readFloat parseF s
  let (v2, s) := TokenStream.readFloat parseF s
  let (_, s) := s.read
  ([v0, v1, v2], s)

/-- The message of the inner (`Target`) `throw` in `Camera.readMdl`. -/
def cameraTargetErrMsg (name tok : List Char) : String :=
  String.mk ("Unknown token in Camera ".toList ++ name
    ++ Char.ofNat 39 :: 's' :: ' ' :: "Target: ".toList ++ '"' :: tok ++ ['"'])

/-- The message of the outer `throw` in `Camera.readMdl`. -/
def cameraErrMsg (name tok : List Char) : String :=
  String.mk ("Unknown token in Camera ".toList ++ name
    ++ ':' :: ' ' :: '"' :: tok ++ ['"'])

/-- The inner `Target` block loop of `Camera.readMdl`. -/
def cameraTargetLoop (parseF : List Char → Nat)
    (readAnim : TokenStream → List Char → TokenStream) :
    Nat → Camera → TokenStream → Except String (Camera × TokenStream)
  | 0, _, _ => .error "out of fuel"
  | fuel + 1, cam, s =>
    let (tok, s) := s.read
    match tok with
    | none => .error (cameraTargetErrMsg cam.name undefinedTok)
    | some token =>
      if token = [rbrace] then .ok (cam, s)
      else if token = "Position".toList then
        let (v, s) := readFloatArray3 parseF s
        cameraTargetLoop parseF readAnim fuel { cam with targetPosition := v } s
      else if token = "Translation".toList then
        cameraTargetLoop parseF readAnim fuel cam (readAnim s "KTTR".toList)
      else .error (cameraTargetErrMsg cam.name token)

/-- The outer block loop of `Camera.readMdl`. -/
def cameraReadMdlLoop (parseF : List Char → Nat)
    (readAnim : TokenStream → List Char → TokenStream) :
    Nat → Camera → TokenStream → Except String (Camera × TokenStream)
  | 0, _, _ => .error "out of fuel"
  | fuel + 1, cam, s =>
    let (tok, s) := s.read
    match tok with
    | none => .error (cameraErrMsg cam.name undefinedTok)
    | some token =>
      if token = [rbrace] then .ok (cam, s)
      else if token = "Position".toList then
        let (v, s) := readFloatArray3 parseF s
        cameraReadMdlLoop parseF readAnim fuel { cam with position := v } s
      else if token = "Translation".toList then
        cameraReadMdlLoop parseF readAnim fuel cam (readAnim s "KCTR".toList)
      else if token = "Rotation".toList then
        cameraReadMdlLoop parseF readAnim fuel cam (readAnim s "KCRL".toList)
      else if token = "FieldOfView".toList then
        let (v, s) := TokenStream.readFloat parseF s
        cameraReadMdlLoop parseF readAnim fuel { cam with fieldOfView := v } s
      else if token = "FarClip".toList then
        let (v, s) := TokenStream.readFloat parseF s
        cameraReadMdlLoop parseF readAnim fuel { cam with farClippingPlane := v } s
      else if token = "NearClip".toList then
        let (v, s) := TokenStream.readFloat parseF s
        cameraReadMdlLoop parseF readAnim fuel { cam with nearClippingPlane := v } s
      else if token = "Target".toList then
        match cameraTargetLoop parseF readAnim fuel cam s with
        | .error e => .error e
        | .ok (cam, s) => cameraReadMdlLoop parseF readAnim fuel cam s
      else .error (cameraErrMsg cam.name token)

/-- `Camera.readMdl(stream)`: the name token, then the block. -/
def cameraReadMdl (parseF : List Char → Nat)
    (readAnim : TokenStream → List Char → TokenStream) (fuel : Nat)
    (cam : Camera) (s : TokenStream) : Except String (Camera × TokenStream) :=
  let (nameTok, s) := s.read
  let cam := { cam with name := nameTok.getD [] }
  let (_, s) := s.read
  cameraReadMdlLoop parseF readAnim fuel cam s

/-! ## Animation track sequences (`MdxSdSequence`, `src/unnamed/part_002`)

Keyframe values are either scalars or typed-array vectors; components are
abstracted to `Int` (the constancy check only compares them with `!==`).
An empty-vector comparison in the source falls into the scalar `else`
branch, where `value !== firstValue` compares two distinct array objects —
always true — which the model renders by making any comparison involving
an empty vector "different". -/

/-- A keyframe value: a scalar or a typed-array vector. -/
inductive MdxValue where
  | scalar (x : Int)
  | vec (xs : List Int)
  deriving Repr, DecidableEq

/-- A parsed animation track keyframe. -/
structure MdxKeyframe where
  frame : Int
  value : MdxValue
  inTan : MdxValue
  outTan : MdxValue
  deriving Repr, DecidableEq

/-- `firstValue[j]`: component access on the first keyframe's value (a
scalar number has no components — `undefined`). -/
def mdxComponent (v : MdxValue) (j : Nat) : Option Int :=
  match v with
  | .scalar _ => none
  | .vec xs => xs.get? j

/-- The body of the constancy check: does `value` differ from
`firstValue`?  (`value.length > 0` selects the componentwise branch;
otherwise the source compares with `!==`, which for arrays is reference
inequality — true for the distinct objects of two parsed keyframes.) -/
def valuesDiffer (firstValue value : MdxValue) : Bool :=
  match value with
  | .vec (x :: xs) =>
      (List.range (x :: xs).length).any
        (fun j => ¬(mdxComponent firstValue j = (x :: xs).get? j))
  | .vec [] => true
  | .scalar a =>
      match firstValue with
      | .scalar b => ¬(a = b)
      | .vec _ => true

/-- An animation sequence over `[start, end]`. -/
structure MdxSdSequence where
  start : Int
  endFrame : Int
  keyframes : List MdxKeyframe
  constant : Bool
  value : Option MdxValue
  deriving Repr, DecidableEq

/-- The in-range test of the retention loop:
`frame >= start && frame <= end`. -/
def inRange (start endFrame : Int) : MdxKeyframe → Bool :=
  fun k => start ≤ k.frame ∧ k.frame ≤ endFrame

/-- The `MdxSdSequence` constructor.  (On an empty keyframe list with
`isGlobalSequence` the source would throw a `TypeError` reading
`keyframes[0].frame`; the model skips the injection there.) -/
def mkMdxSdSequence (defval : MdxValue) (start endFrame : Int)
    (keyframes : List MdxKeyframe) (isGlobalSequence : Bool) :
    MdxSdSequence :=
  let injected :=
    if isGlobalSequence then
      match keyframes.head? with
      | some k0 => if endFrame < k0.frame then [k0] else []
      | none => []
    else []
  let retained := injected ++ keyframes.filter (inRange start endFrame)
  match retained with
  | [] => ⟨start, endFrame, [], true, some defval⟩
  | [k] => ⟨start, endFrame, [k], true, some k.value⟩
  | k0 :: k1 :: rest =>
    if (k1 :: rest).all (fun k => !valuesDiffer k0.value k.value) then
      ⟨start, endFrame, k0 :: k1 :: rest, true, some k0.value⟩
    else
      let kfs1 :=
        if ¬(k0.frame = start) then
          ⟨start, defval, defval, defval⟩ :: k0 :: k1 :: rest
        else k0 :: k1 :: rest
      let h1 := kfs1.headD ⟨start, defval, defval, defval⟩
      let kfs2 :=
        if ¬((kfs1.getLast?.map MdxKeyframe.frame) = some endFrame) then
          kfs1 ++ [⟨endFrame, h1.value, h1.outTan, h1.inTan⟩]
        else kfs1
      ⟨start, endFrame, kfs2, false, none⟩

/-! ## Concrete sample records (used by the witnesses) -/

/-- A populated version-25 map-information record. -/
def exampleW3i : War3MapW3i :=
  ⟨25, 0, 0, [77], [], [], [], List.replicate 8 0, List.replicate 4 0,
    List.replicate 2 0, 0, [65], 0, [], [], [], [], 0, [], [], [], [], 0,
    List.replicate 2 0, 0, List.replicate 4 0, 0, [], [66],
    List.replicate 4 0, [⟨[1, 2, 3]⟩], [], [⟨List.replicate 16 5⟩],
    [⟨List.replicate 8 6⟩], [], [⟨[9]⟩]⟩

/-- A trivial trigger representation for the witnesses: every trigger
serializes to the two bytes `[1, 2]`. -/
def exampleWctPayload : Unit → List Nat := fun _ => [1, 2]

/-- A version-1 custom-text-trigger file with a comment, a head trigger and
two list triggers. -/
def exampleWct : War3MapWct Unit := ⟨1, [65], some (), [(), ()]⟩

/-- The parser matching `exampleWctPayload`: every trigger occupies exactly
two bytes. -/
def exampleWctParse : BinaryStream → Unit × BinaryStream :=
  fun s => ((), s.skip 2)

/-- A version-0 custom-text-trigger file carrying a comment, which a
version-0 `save` never serializes. -/
def cexWct : War3MapWct Unit := ⟨0, [65], none, []⟩

/-- A texture with a two-character path. -/
def exampleTexture : Texture := ⟨7, [97, 98], 3⟩

/-- A trivial scalar printer over `Unit` for the color-swizzle witness. -/
def exampleNumToStr : Unit → List Char := fun _ => "0".toList

/-- The matching trivial scalar parser. -/
def exampleParseF : List Char → Unit := fun _ => ()

/-- The exact token-boundary input of C6:
`Header "A String" {` newline tab `Name Value, // A Comment` newline `}`. -/
def c6Input : List Char :=
  "Header ".toList ++ '"' :: "A String".toList ++ '"' :: ' ' :: lbrace ::
    "\n\tName Value, // A Comment\n".toList ++ [rbrace]

/-! ## Theorems -/

theorem uint32ToBytes_length (v : Nat) : (uint32ToBytes v).length = 4 := rfl

theorem int32ToBytes_length (v : Int) : (int32ToBytes v).length = 4 := rfl

theorem uint32ToBytes_lt (v : Nat) : ∀ b ∈ uint32ToBytes v, b < 256 := by
  intro b hb
  simp only [uint32ToBytes, List.mem_cons, List.mem_singleton] at hb
  rcases hb with h | h | h | h | h <;> first
    | (subst h; exact Nat.mod_lt _ (by norm_num))
    | exact absurd h (by simp)

theorem uint8ToUint32_uint32ToBytes (v : Nat) :
    uint8ToUint32 (v % 256) (v / 256 % 256) (v / 65536 % 256) (v / 16777216 % 256)
      = v % 4294967296 := by
  simp only [uint8ToUint32]
  omega

/-! Basic facts about `writeBytes`. -/

theorem writeBytes_index (s : BinaryStream) (bs : List Nat) :
    (s.writeBytes bs).index = s.index + bs.length := by
  induction bs generalizing s with
  | nil => simp [BinaryStream.writeBytes]
  | cons b bs ih =>
      rw [BinaryStream.writeBytes, ih]
      simp [BinaryStream.setU8]
      omega

theorem writeBytes_data_length (s : BinaryStream) (bs : List Nat) :
    (s.writeBytes bs).data.length = s.data.length := by
  induction bs generalizing s with
  | nil => rfl
  | cons b bs ih =>
      rw [BinaryStream.writeBytes, ih]
      simp [BinaryStream.setU8]

/-- Helper: `List.set` in the middle of an append. -/
theorem set_append_cons (pre : List Nat) (x : Nat) (suf : List Nat) (v : Nat) :
    (pre ++ x :: suf).set pre.length v = pre ++ v :: suf := by
  induction pre with
  | nil => rfl
  | cons p ps ih => simp [List.set, ih]

/-- Writing `bs` over a same-length middle segment replaces that segment by
`bs` truncated modulo 256 and moves the cursor past it. -/
theorem writeBytes_eq (bs : List Nat) :
    ∀ (pre mid suf : List Nat), mid.length = bs.length →
    BinaryStream.writeBytes ⟨pre ++ mid ++ suf, pre.length⟩ bs
      = ⟨pre ++ bs.map (· % 256) ++ suf, pre.length + bs.length⟩ := by
  induction bs with
  | nil =>
      intro pre mid suf h
      have : mid = [] := List.length_eq_zero.mp h
      subst this
      simp [BinaryStream.writeBytes]
  | cons b bs ih =>
      intro pre mid suf h
      match mid with
      | [] => simp at h
      | m :: ms =>
          simp only [List.length_cons] at h
          rw [BinaryStream.writeBytes]
          have hset : ((pre ++ (m :: ms) ++ suf).set pre.length (b % 256))
              = (pre ++ [b % 256]) ++ ms ++ suf := by
            have h1 := set_append_cons pre m (ms ++ suf) (b % 256)
            simp [h1]
          simp only [BinaryStream.setU8, hset]
          have hlen : pre.length + 1 = (pre ++ [b % 256]).length := by simp
          rw [hlen, ih (pre ++ [b % 256]) ms suf (by omega)]
          simp
          omega

/-! Index bookkeeping for the individual write operations. -/

@[simp] theorem write_index (s : BinaryStream) (v : List Nat) :
    (s.write v).index = s.index + v.length :=
  writeBytes_index s v

@[simp] theorem writeInt32_index (s : BinaryStream) (v : Int) :
    (s.writeInt32 v).index = s.index + 4 :=
  writeBytes_index s _

@[simp] theorem writeUint32_index (s : BinaryStream) (v : Nat) :
    (s.writeUint32 v).index = s.index + 4 :=
  writeBytes_index s _

@[simp] theorem writeFloat32_index (s : BinaryStream) (v : Nat) :
    (s.writeFloat32 v).index = s.index + 4 :=
  writeBytes_index s _

theorem flatten_map_const_length {α : Type} (f : α → List Nat) (c : Nat)
    (hf : ∀ x, (f x).length = c) (l : List α) :
    ((l.map f).flatten).length = c * l.length := by
  induction l with
  | nil => simp
  | cons x xs ih =>
      simp [ih, hf x]
      ring

@[simp] theorem writeFloat32Array_index (s : BinaryStream) (view : List Nat) :
    (s.writeFloat32Array view).index = s.index + 4 * view.length := by
  unfold BinaryStream.writeFloat32Array
  rw [writeBytes_index, flatten_map_const_length uint32ToBytes 4 uint32ToBytes_length]

@[simp] theorem writeInt32Array_index (s : BinaryStream) (view : List Int) :
    (s.writeInt32Array view).index = s.index + 4 * view.length := by
  unfold BinaryStream.writeInt32Array
  rw [writeBytes_index, flatten_map_const_length int32ToBytes 4 int32ToBytes_length]

@[simp] theorem writeUint8Array_index (s : BinaryStream) (view : List Nat) :
    (s.writeUint8Array view).index = s.index + view.length :=
  writeBytes_index s _

/-- Saving a list of sub-records advances the cursor by the sum of their
payload lengths. -/
theorem foldl_writeBytes_index {α : Type} (payload : α → List Nat)
    (l : List α) (s : BinaryStream) :
    (l.foldl (fun s p => s.writeBytes (payload p)) s).index
      = s.index + (l.map (fun p => (payload p).length)).sum := by
  induction l generalizing s with
  | nil => simp
  | cons x xs ih =>
      simp only [List.foldl_cons, List.map_cons, List.sum_cons]
      rw [ih, writeBytes_index]
      omega

/-- A byte-length accumulator fold is the initial value plus the sum. -/
theorem foldl_add_length {α : Type} (f : α → Nat) (l : List α) (a : Nat) :
    l.foldl (fun n p => n + f p) a = a + (l.map f).sum := by
  induction l generalizing a with
  | nil => simp
  | cons x xs ih =>
      simp only [List.foldl_cons, List.map_cons, List.sum_cons]
      rw [ih]
      omega

theorem sum_map_eq_const {α : Type} (f : α → Nat) (c : Nat) (l : List α)
    (h : ∀ x ∈ l, f x = c) : (l.map f).sum = c * l.length := by
  induction l with
  | nil => simp
  | cons x xs ih =>
      simp only [List.map_cons, List.sum_cons, List.length_cons]
      rw [h x (by simp), ih fun y hy => h y (by simp [hy])]
      ring

/-! ### Claim C1: `getByteLength()` equals the number of bytes `save()` writes -/

/-- Helper for C1, W3i half: the cursor after `save` sits exactly at
`getByteLength`. -/
theorem w3i_save_index (m : War3MapW3i)
    (htile : m.tileset.length = 1)
    (hlight : m.lightEnvironmentTileset.length = 1)
    (hcb : m.cameraBounds.length = 8)
    (hcbc : m.cameraBoundsComplements.length = 4)
    (hps : m.playableSize.length = 2)
    (hfh : m.fogHeight.length = 2)
    (hfc : m.fogColor.length = 4)
    (hwv : m.waterVertexColor.length = 4)
    (hup : ∀ u ∈ m.upgradeAvailabilityChanges, u.payload.length = 16)
    (hte : ∀ t ∈ m.techAvailabilityChanges, t.payload.length = 8) :
    (m.save).index = m.getByteLength := by
  have hupsum :
      (m.upgradeAvailabilityChanges.map (fun p => p.payload.length)).sum
        = 16 * m.upgradeAvailabilityChanges.length :=
    sum_map_eq_const _ 16 _ hup
  have htesum :
      (m.techAvailabilityChanges.map (fun p => p.payload.length)).sum
        = 8 * m.techAvailabilityChanges.length :=
    sum_map_eq_const _ 8 _ hte
  by_cases hv : 24 < m.version <;>
    simp only [War3MapW3i.save, War3MapW3i.getByteLength, hv, if_true, if_false,
      reduceIte, foldl_writeBytes_index, foldl_add_length, write_index,
      writeInt32_index, writeUint32_index, writeFloat32_index,
      writeFloat32Array_index, writeInt32Array_index, writeUint8Array_index,
      Player.getByteLength, Force.getByteLength, RandomUnitTable.getByteLength,
      RandomItemTable.getByteLength, BinaryStream.mk0, List.length_append,
      List.length_cons, List.length_nil, htile, hlight, hcb, hcbc, hps, hfh,
      hfc, hwv, hupsum, htesum] <;>
    omega

/-- Helper for C1, Wct half. -/
theorem wct_save_index {CTT : Type} (payload : CTT → List Nat)
    (w : War3MapWct CTT) :
    (War3MapWct.save payload w).index = War3MapWct.getByteLength payload w := by
  by_cases hv : w.version = 1 <;>
    (simp only [War3MapWct.save, War3MapWct.getByteLength, hv, if_true, if_false,
      reduceIte, foldl_writeBytes_index, foldl_add_length, write_index,
      writeInt32_index, writeUint32_index, writeBytes_index,
      BinaryStream.mk0, List.length_append, List.length_cons,
      List.length_nil]
     try omega)

/-- C1: for every `War3MapW3i` object (with the two fixed one-character
fields of length exactly 1, the fixed-size typed-array fields of their
constructed sizes, and the upgrade/tech sub-records of their fixed 16- and
8-byte sizes) and for every `War3MapWct` object (for any trigger
representation; with, for version 1, a non-null trigger),
`getByteLength()` equals the exact number of bytes `save()` writes — the
cursor of the freshly allocated output buffer ends exactly at
`getByteLength`, under both version branches and for empty or populated
sub-record lists. -/
theorem c1_getByteLength_exact :
    (∀ m : War3MapW3i,
      m.tileset.length = 1 →
      m.lightEnvironmentTileset.length = 1 →
      m.cameraBounds.length = 8 →
      m.cameraBoundsComplements.length = 4 →
      m.playableSize.length = 2 →
      m.fogHeight.length = 2 →
      m.fogColor.length = 4 →
      m.waterVertexColor.length = 4 →
      (∀ u ∈ m.upgradeAvailabilityChanges, u.payload.length = 16) →
      (∀ t ∈ m.techAvailabilityChanges, t.payload.length = 8) →
      (m.save).index = m.getByteLength) ∧
    (∀ (CTT : Type) (payload : CTT → List Nat) (w : War3MapWct CTT),
      (w.version = 1 → w.trigger.isSome) →
      (War3MapWct.save payload w).index = War3MapWct.getByteLength payload w) := by
  constructor
  · intro m htile hlight hcb hcbc hps hfh hfc hwv hup hte
    exact w3i_save_index m htile hlight hcb hcbc hps hfh hfc hwv hup hte
  · intro CTT payload w _
    exact wct_save_index payload w

/-- Witness for C1 at the concrete sample records, discharging every
hypothesis there. -/
theorem c1_getByteLength_exact_witness :
    (exampleW3i.tileset.length = 1 ∧
     exampleW3i.lightEnvironmentTileset.length = 1 ∧
     exampleW3i.cameraBounds.length = 8 ∧
     exampleW3i.cameraBoundsComplements.length = 4 ∧
     exampleW3i.playableSize.length = 2 ∧
     exampleW3i.fogHeight.length = 2 ∧
     exampleW3i.fogColor.length = 4 ∧
     exampleW3i.waterVertexColor.length = 4 ∧
     (∀ u ∈ exampleW3i.upgradeAvailabilityChanges, u.payload.length = 16) ∧
     (∀ t ∈ exampleW3i.techAvailabilityChanges, t.payload.length = 8) ∧
     (exampleW3i.save).index = exampleW3i.getByteLength) ∧
    ((exampleWct.version = 1 → exampleWct.trigger.isSome) ∧
     (War3MapWct.save exampleWctPayload exampleWct).index
        = War3MapWct.getByteLength exampleWctPayload exampleWct) :=
  ⟨⟨by decide, by decide, by decide, by decide, by decide, by decide,
    by decide, by decide, by decide, by decide,
    c1_getByteLength_exact.1 exampleW3i (by decide) (by decide) (by decide)
      (by decide) (by decide) (by decide) (by decide) (by decide) (by decide)
      (by decide)⟩,
   ⟨by decide,
    c1_getByteLength_exact.2 Unit exampleWctPayload exampleWct (by decide)⟩⟩

/-! ### Claim C3: `substream` -/

/-- C3, evaluated: on an 8-byte backing buffer with the parent's cursor at
2, `substream(3)` shares the backing buffer, views it from offset 2 with
view length 3, starts at index 0, and leaves the parent's cursor at 2 — but
the constructor assigns `this.byteLength = buffer.byteLength`, so the
substream's `byteLength` member is 8 and its initial `remaining()` is 8,
not the requested 3 as the claim (and the method's own doc comment)
state. -/
theorem c3_substream_byteLength_evaluation :
    (((mkBinaryStream (List.replicate 8 0) 0 8).skip 2).substream 3).buffer
        = ((mkBinaryStream (List.replicate 8 0) 0 8).skip 2).buffer ∧
    (((mkBinaryStream (List.replicate 8 0) 0 8).skip 2).substream 3).viewOffset = 2 ∧
    (((mkBinaryStream (List.replicate 8 0) 0 8).skip 2).substream 3).viewLength = 3 ∧
    (((mkBinaryStream (List.replicate 8 0) 0 8).skip 2).substream 3).index = 0 ∧
    ((mkBinaryStream (List.replicate 8 0) 0 8).skip 2).index = 2 ∧
    (((mkBinaryStream (List.replicate 8 0) 0 8).skip 2).substream 3).byteLength = 8 ∧
    (((mkBinaryStream (List.replicate 8 0) 0 8).skip 2).substream 3).remaining = 8 ∧
    ¬((((mkBinaryStream (List.replicate 8 0) 0 8).skip 2).substream 3).remaining = 3) := by
  decide

/-! ### Claim C8: `readInt32Array` versus `readInt32` -/

/-- C8, evaluated: on the bytes `[0, 0, 1, 0]`, `readInt32()` returns the
little-endian 32-bit value 65536, while `readInt32Array(1)` — whose element
conversion mistakenly calls `uint8ToInt16`, so only the first two bytes
contribute — returns `[0]`; both advance the cursor by 4. -/
theorem c8_readInt32Array_evaluation :
    ((BinaryStream.mk0 [0, 0, 1, 0]).readInt32).1 = 65536 ∧
    ((BinaryStream.mk0 [0, 0, 1, 0]).readInt32).2.index = 4 ∧
    ((BinaryStream.mk0 [0, 0, 1, 0]).readInt32Array 1).1 = [0] ∧
    ((BinaryStream.mk0 [0, 0, 1, 0]).readInt32Array 1).2.index = 4 ∧
    ¬(((BinaryStream.mk0 [0, 0, 1, 0]).readInt32Array 1).1
        = [((BinaryStream.mk0 [0, 0, 1, 0]).readInt32).1]) := by
  decide

/-! ### Claim C4: `read(size, allowNulls)` -/

/-- C4, counterexample: the claim includes `size = 0`, but the source runs
`size = size || this.remaining()`, so `read(0)` on a stream with two bytes
remaining consumes both of them — the index advances by 2, not by 0. -/
theorem c4_read_zero_size_counterexample :
    ((BinaryStream.mk0 [65, 66]).read 0 false).2.index = 2 ∧
    ¬(((BinaryStream.mk0 [65, 66]).read 0 false).2.index = 0) := by
  decide

theorem range_map_getD_eq_take_drop (d : List Nat) (i n : Nat)
    (h : i + n ≤ d.length) :
    (List.range n).map (fun j => d.getD (i + j) 0) = (d.drop i).take n := by
  apply List.ext_getElem
  · simp
    omega
  · intro j h1 h2
    have hj : i + j < d.length := by
      simp at h1
      omega
    rw [List.getElem_map, List.getElem_range, List.getElem_take,
      List.getElem_drop, List.getD_eq_getElem d 0 hj]

/-- C4, amended: for every positive `size` not exceeding `remaining()`,
`read(size, allowNulls)` advances the index by exactly `size`, regardless
of how many zero bytes were skipped, and returns the character codes of
the `size` bytes at the old index with zero bytes omitted unless
`allowNulls` is set; a `size` of 0, however, is treated like an absent
argument and consumes everything remaining. -/
theorem c4_read_advances_by_size (s : BinaryStream) (size : Nat)
    (allowNulls : Bool) (h1 : 1 ≤ size) (h2 : size ≤ s.remaining) :
    (s.read size allowNulls).2.index = s.index + size ∧
    (s.read size allowNulls).1
      = ((s.data.drop s.index).take size).filter
          (fun b => allowNulls || decide (0 < b)) := by
  have hsz : ¬(size = 0) := by omega
  have hrange : s.index + size ≤ s.data.length := by
    have := h2
    simp only [BinaryStream.remaining] at this
    omega
  constructor
  · simp [BinaryStream.read, BinaryStream.skip, hsz]
  · simp only [BinaryStream.read, BinaryStream.peek, hsz, if_false, reduceIte]
    rw [show (fun i => s.u8 (s.index + i)) = (fun j => s.data.getD (s.index + j) 0)
        from rfl]
    rw [range_map_getD_eq_take_drop s.data s.index size hrange]

/-- Witness for C4's amended theorem at a concrete input: two bytes, a read
of size 1 with a null byte in range. -/
theorem c4_read_advances_by_size_witness :
    1 ≤ 2 ∧ 2 ≤ (BinaryStream.mk0 [65, 0, 66]).remaining ∧
    (((BinaryStream.mk0 [65, 0, 66]).read 2 false).2.index = 0 + 2 ∧
      ((BinaryStream.mk0 [65, 0, 66]).read 2 false).1
        = ((([65, 0, 66] : List Nat).drop 0).take 2).filter
            (fun b => false || decide (0 < b))) :=
  ⟨by decide, by decide,
    c4_read_advances_by_size (BinaryStream.mk0 [65, 0, 66]) 2 false
      (by decide) (by decide)⟩

/-! ### Positioned reads and writes over explicitly laid-out buffers -/

theorem map_mod_self (bs : List Nat) (h : ∀ b ∈ bs, b < 256) :
    bs.map (· % 256) = bs := by
  induction bs with
  | nil => rfl
  | cons b tl ih =>
      simp only [List.map_cons]
      rw [Nat.mod_eq_of_lt (h b (by simp)), ih fun x hx => h x (by simp [hx])]

theorem getD_append_right_at (l1 l2 : List Nat) (i : Nat) :
    (l1 ++ l2).getD (l1.length + i) 0 = l2.getD i 0 := by
  rw [List.getD_eq_getElem?_getD, List.getD_eq_getElem?_getD,
    List.getElem?_append]
  simp

theorem getD_append_left_at (l1 l2 : List Nat) (i : Nat) (h : i < l1.length) :
    (l1 ++ l2).getD i 0 = l1.getD i 0 := by
  rw [List.getD_eq_getElem?_getD, List.getD_eq_getElem?_getD,
    List.getElem?_append, if_pos h]

theorem data_getD_pos (pre mid suf : List Nat) (j : Nat) (hj : j < mid.length) :
    (pre ++ mid ++ suf).getD (pre.length + j) 0 = mid.getD j 0 := by
  rw [List.append_assoc, getD_append_right_at, getD_append_left_at _ _ _ hj]

theorem readUint32_pos (pre suf : List Nat) (v : Nat) :
    BinaryStream.readUint32 ⟨pre ++ uint32ToBytes v ++ suf, pre.length⟩
      = (v % 4294967296, ⟨pre ++ uint32ToBytes v ++ suf, pre.length + 4⟩) := by
  have h0 := data_getD_pos pre (uint32ToBytes v) suf 0 (by simp [uint32ToBytes])
  have h1 := data_getD_pos pre (uint32ToBytes v) suf 1 (by simp [uint32ToBytes])
  have h2 := data_getD_pos pre (uint32ToBytes v) suf 2 (by simp [uint32ToBytes])
  have h3 := data_getD_pos pre (uint32ToBytes v) suf 3 (by simp [uint32ToBytes])
  simp only [Nat.add_zero] at h0
  simp only [BinaryStream.readUint32, BinaryStream.u8, BinaryStream.skip,
    h0, h1, h2, h3]
  rw [show (uint32ToBytes v).getD 0 0 = v % 256 from rfl,
    show (uint32ToBytes v).getD 1 0 = v / 256 % 256 from rfl,
    show (uint32ToBytes v).getD 2 0 = v / 65536 % 256 from rfl,
    show (uint32ToBytes v).getD 3 0 = v / 16777216 % 256 from rfl,
    uint8ToUint32_uint32ToBytes]

theorem readInt32_pos (pre suf : List Nat) (v : Int)
    (h1 : -2147483648 ≤ v) (h2 : v < 2147483648) :
    BinaryStream.readInt32 ⟨pre ++ int32ToBytes v ++ suf, pre.length⟩
      = (v, ⟨pre ++ int32ToBytes v ++ suf, pre.length + 4⟩) := by
  have hu0 : (0 : Int) ≤ v.emod 4294967296 := Int.emod_nonneg v (by norm_num)
  have hu1 : v.emod 4294967296 < 4294967296 := Int.emod_lt_of_pos v (by norm_num)
  have hcast : (((v.emod 4294967296).toNat : Int)) = v.emod 4294967296 :=
    Int.toNat_of_nonneg hu0
  have hs : BinaryStream.readInt32 ⟨pre ++ int32ToBytes v ++ suf, pre.length⟩
      = (toSigned32 ((BinaryStream.readUint32
            ⟨pre ++ int32ToBytes v ++ suf, pre.length⟩).1),
         (BinaryStream.readUint32 ⟨pre ++ int32ToBytes v ++ suf, pre.length⟩).2) :=
    rfl
  rw [hs, show int32ToBytes v = uint32ToBytes (v.emod 4294967296).toNat from rfl,
    readUint32_pos pre suf (v.emod 4294967296).toNat]
  have humod : (v.emod 4294967296).toNat % 4294967296 = (v.emod 4294967296).toNat := by
    omega
  dsimp only
  rw [humod]
  have hts : toSigned32 (v.emod 4294967296).toNat = v := by
    generalize hg : (v.emod 4294967296).toNat = u
    have hcast2 : (u : Int) = v.emod 4294967296 := by rw [← hg]; exact hcast
    have hcast3 : (u : Int) = v % 4294967296 := hcast2
    simp only [toSigned32]
    split <;> omega
  rw [hts]

theorem takeWhile_append_zero (comment suf : List Nat)
    (hc : ∀ c ∈ comment, c ≠ 0) :
    ((comment ++ 0 :: suf).takeWhile (fun b => b ≠ 0)) = comment := by
  induction comment with
  | nil => simp [List.takeWhile]
  | cons c tl ih =>
      have hcne : c ≠ 0 := hc c (by simp)
      simp only [List.cons_append, List.takeWhile_cons]
      rw [if_pos (by simpa using hcne), ih fun x hx => hc x (by simp [hx])]

theorem readUntilNull_pos (pre comment suf : List Nat)
    (hc : ∀ c ∈ comment, c ≠ 0) :
    BinaryStream.readUntilNull ⟨pre ++ (comment ++ 0 :: suf), pre.length⟩
      = (comment, ⟨pre ++ (comment ++ 0 :: suf), pre.length + (comment.length + 1)⟩) := by
  simp only [BinaryStream.readUntilNull, BinaryStream.peekUntilNull,
    BinaryStream.skip, List.drop_left]
  rw [takeWhile_append_zero comment suf hc]

theorem writeBytes_fill (pre bs : List Nat) (m : Nat) :
    BinaryStream.writeBytes ⟨pre ++ List.replicate (bs.length + m) 0, pre.length⟩ bs
      = ⟨pre ++ bs.map (· % 256) ++ List.replicate m 0, pre.length + bs.length⟩ := by
  have h := writeBytes_eq bs pre (List.replicate bs.length 0)
    (List.replicate m 0) (by simp)
  rw [List.replicate_add] at *
  rw [← List.append_assoc] at *
  exact h

theorem foldl_writeBytes_fill {α : Type} (payload : α → List Nat)
    (hb : ∀ t, ∀ b ∈ payload t, b < 256) (l : List α) :
    ∀ (pre : List Nat) (m : Nat),
    l.foldl (fun (s : BinaryStream) t => s.writeBytes (payload t))
        ⟨pre ++ List.replicate ((l.map fun t => (payload t).length).sum + m) 0,
          pre.length⟩
      = ⟨pre ++ (l.map payload).flatten ++ List.replicate m 0,
          pre.length + (l.map fun t => (payload t).length).sum⟩ := by
  induction l with
  | nil => intro pre m; simp
  | cons t ts ih =>
      intro pre m
      simp only [List.foldl_cons, List.map_cons, List.sum_cons]
      have hsplit : (payload t).length
            + ((ts.map fun t => (payload t).length).sum + m)
          = (payload t).length + (ts.map fun t => (payload t).length).sum + m := by
        omega
      rw [← hsplit, writeBytes_fill pre (payload t)
        ((ts.map fun t => (payload t).length).sum + m),
        map_mod_self _ (hb t)]
      have hlen : pre.length + (payload t).length = (pre ++ payload t).length := by
        simp
      rw [hlen, ih (pre ++ payload t) m]
      simp [List.append_assoc]
      omega

/-- A single serialization step: writing a byte list over the zero pool
appends it to the written prefix. -/
theorem writeBytes_step (pre bs : List Nat) (m : Nat)
    (hbs : ∀ b ∈ bs, b < 256) :
    BinaryStream.writeBytes ⟨pre ++ List.replicate (bs.length + m) 0, pre.length⟩ bs
      = ⟨(pre ++ bs) ++ List.replicate m 0, (pre ++ bs).length⟩ := by
  rw [writeBytes_fill, map_mod_self bs hbs]
  simp

/-- `writeBytes_step` starting on the freshly allocated zero buffer. -/
theorem writeBytes_step0 (bs : List Nat) (m : Nat) (hbs : ∀ b ∈ bs, b < 256) :
    BinaryStream.writeBytes (BinaryStream.mk0 (List.replicate (bs.length + m) 0)) bs
      = ⟨bs ++ List.replicate m 0, bs.length⟩ := by
  have h := writeBytes_step [] bs m hbs
  simpa [BinaryStream.mk0] using h

/-- The bytes a version-1 `wct` save lays out: version, null-terminated
comment, head trigger, trigger count, triggers. -/
theorem wct_save_data_v1 {CTT : Type} (payload : CTT → List Nat)
    (w : War3MapWct CTT) (hv : w.version = 1)
    (hcomm : ∀ c ∈ w.comment, c < 256)
    (hpb : ∀ t, ∀ b ∈ payload t, b < 256) :
    (War3MapWct.save payload w).data
      = int32ToBytes w.version ++ (w.comment ++ [0])
        ++ ((w.trigger.map payload).getD [])
        ++ uint32ToBytes w.triggers.length
        ++ (w.triggers.map payload).flatten := by
  have hbs1 : ∀ b ∈ int32ToBytes w.version, b < 256 := uint32ToBytes_lt _
  have hcb2 : ∀ b ∈ w.comment ++ [0], b < 256 := by
    intro b hb
    rcases List.mem_append.mp hb with h | h
    · exact hcomm b h
    · simp at h
      omega
  have htb2 : ∀ b ∈ (w.trigger.map payload).getD [], b < 256 := by
    cases htr : w.trigger with
    | none => intro b hb; simp at hb
    | some t => intro b hb; exact hpb t b (by simpa using hb)
  have hbs4 : ∀ b ∈ uint32ToBytes w.triggers.length, b < 256 := uint32ToBytes_lt _
  have hL : War3MapWct.getByteLength payload w
      = (int32ToBytes w.version).length + ((w.comment ++ [0]).length
        + (((w.trigger.map payload).getD []).length
        + ((uint32ToBytes w.triggers.length).length
        + ((w.triggers.map fun t => (payload t).length).sum + 0)))) := by
    simp [War3MapWct.getByteLength, hv, foldl_add_length, int32ToBytes,
      uint32ToBytes]
    omega
  simp only [War3MapWct.save, BinaryStream.writeInt32,
    BinaryStream.write, BinaryStream.writeUint32]
  rw [if_pos hv, hL, writeBytes_step0 _ _ hbs1, writeBytes_step _ _ _ hcb2,
    writeBytes_step _ _ _ htb2, writeBytes_step _ _ _ hbs4,
    foldl_writeBytes_fill payload hpb w.triggers]
  simp

/-- The bytes a non-version-1 `wct` save lays out: version, trigger count,
triggers. -/
theorem wct_save_data_other {CTT : Type} (payload : CTT → List Nat)
    (w : War3MapWct CTT) (hv : ¬(w.version = 1))
    (hpb : ∀ t, ∀ b ∈ payload t, b < 256) :
    (War3MapWct.save payload w).data
      = int32ToBytes w.version ++ uint32ToBytes w.triggers.length
        ++ (w.triggers.map payload).flatten := by
  have hbs1 : ∀ b ∈ int32ToBytes w.version, b < 256 := uint32ToBytes_lt _
  have hbs4 : ∀ b ∈ uint32ToBytes w.triggers.length, b < 256 := uint32ToBytes_lt _
  have hL : War3MapWct.getByteLength payload w
      = (int32ToBytes w.version).length + ((uint32ToBytes w.triggers.length).length
        + ((w.triggers.map fun t => (payload t).length).sum + 0)) := by
    simp [War3MapWct.getByteLength, hv, foldl_add_length, int32ToBytes,
      uint32ToBytes]
    omega
  simp only [War3MapWct.save, BinaryStream.writeInt32,
    BinaryStream.write, BinaryStream.writeUint32]
  rw [if_neg hv, hL, writeBytes_step0 _ _ hbs1, writeBytes_step _ _ _ hbs4,
    foldl_writeBytes_fill payload hpb w.triggers]
  simp

theorem loadTriggers_pos {CTT : Type} (parse : BinaryStream → CTT × BinaryStream)
    (payload : CTT → List Nat)
    (Hparse : ∀ (pre suf : List Nat) (t : CTT),
      parse ⟨pre ++ payload t ++ suf, pre.length⟩
        = (t, ⟨pre ++ payload t ++ suf, pre.length + (payload t).length⟩))
    (ts : List CTT) :
    ∀ (pre suf : List Nat),
    War3MapWct.loadTriggers parse ts.length
        ⟨pre ++ (ts.map payload).flatten ++ suf, pre.length⟩
      = (ts, ⟨pre ++ (ts.map payload).flatten ++ suf,
          pre.length + ((ts.map fun t => (payload t).length).sum)⟩) := by
  induction ts with
  | nil => intro pre suf; simp [War3MapWct.loadTriggers]
  | cons t ts ih =>
      intro pre suf
      simp only [List.length_cons, War3MapWct.loadTriggers, List.map_cons,
        List.flatten_cons, List.sum_cons]
      have hdata : pre ++ (payload t ++ (ts.map payload).flatten) ++ suf
          = pre ++ payload t ++ ((ts.map payload).flatten ++ suf) := by
        simp [List.append_assoc]
      rw [hdata, Hparse pre ((ts.map payload).flatten ++ suf) t]
      dsimp only
      have hlen : pre.length + (payload t).length = (pre ++ payload t).length := by
        simp
      have hdata2 : pre ++ payload t ++ ((ts.map payload).flatten ++ suf)
          = (pre ++ payload t) ++ (ts.map payload).flatten ++ suf := by
        simp [List.append_assoc]
      rw [hlen, hdata2, ih (pre ++ payload t) suf]
      simp [List.append_assoc]
      omega

/-! Wrappers around the positioned read lemmas that take the buffer layout
and cursor position as explicit equations, so they apply wherever the
layout is provable rather than syntactic. -/

theorem readInt32_at (d : List Nat) (i : Nat) (pre suf : List Nat) (v : Int)
    (hd : d = pre ++ int32ToBytes v ++ suf) (hi : i = pre.length)
    (h1 : -2147483648 ≤ v) (h2 : v < 2147483648) :
    BinaryStream.readInt32 ⟨d, i⟩ = (v, ⟨d, i + 4⟩) := by
  subst hd
  subst hi
  exact readInt32_pos pre suf v h1 h2

theorem readUint32_at (d : List Nat) (i : Nat) (pre suf : List Nat) (v : Nat)
    (hd : d = pre ++ uint32ToBytes v ++ suf) (hi : i = pre.length)
    (hv : v < 4294967296) :
    BinaryStream.readUint32 ⟨d, i⟩ = (v, ⟨d, i + 4⟩) := by
  subst hd
  subst hi
  rw [readUint32_pos pre suf v, Nat.mod_eq_of_lt hv]

theorem readUntilNull_at (d : List Nat) (i : Nat) (pre comment suf : List Nat)
    (hd : d = pre ++ (comment ++ 0 :: suf)) (hi : i = pre.length)
    (hc : ∀ c ∈ comment, c ≠ 0) :
    BinaryStream.readUntilNull ⟨d, i⟩
      = (comment, ⟨d, i + (comment.length + 1)⟩) := by
  subst hd
  subst hi
  exact readUntilNull_pos pre comment suf hc

theorem loadTriggers_at {CTT : Type} (parse : BinaryStream → CTT × BinaryStream)
    (payload : CTT → List Nat)
    (Hparse : ∀ (pre suf : List Nat) (t : CTT),
      parse ⟨pre ++ payload t ++ suf, pre.length⟩
        = (t, ⟨pre ++ payload t ++ suf, pre.length + (payload t).length⟩))
    (ts : List CTT) (d : List Nat) (i n : Nat) (pre suf : List Nat)
    (hd : d = pre ++ (ts.map payload).flatten ++ suf) (hi : i = pre.length)
    (hn : n = ts.length) :
    (War3MapWct.loadTriggers parse n ⟨d, i⟩).1 = ts := by
  subst hd
  subst hi
  subst hn
  rw [loadTriggers_pos parse payload Hparse ts pre suf]

theorem parse_at {CTT : Type} (parse : BinaryStream → CTT × BinaryStream)
    (payload : CTT → List Nat)
    (Hparse : ∀ (pre suf : List Nat) (t : CTT),
      parse ⟨pre ++ payload t ++ suf, pre.length⟩
        = (t, ⟨pre ++ payload t ++ suf, pre.length + (payload t).length⟩))
    (d : List Nat) (i : Nat) (pre suf : List Nat) (t : CTT)
    (hd : d = pre ++ payload t ++ suf) (hi : i = pre.length) :
    parse ⟨d, i⟩ = (t, ⟨d, i + (payload t).length⟩) := by
  subst hd
  subst hi
  exact Hparse pre suf t

/-- Full-pair version of `loadTriggers_at`. -/
theorem loadTriggers_at_pair {CTT : Type}
    (parse : BinaryStream → CTT × BinaryStream) (payload : CTT → List Nat)
    (Hparse : ∀ (pre suf : List Nat) (t : CTT),
      parse ⟨pre ++ payload t ++ suf, pre.length⟩
        = (t, ⟨pre ++ payload t ++ suf, pre.length + (payload t).length⟩))
    (ts : List CTT) (d : List Nat) (i n : Nat) (pre suf : List Nat)
    (hd : d = pre ++ (ts.map payload).flatten ++ suf) (hi : i = pre.length)
    (hn : n = ts.length) :
    War3MapWct.loadTriggers parse n ⟨d, i⟩
      = (ts, ⟨d, i + (ts.map fun t => (payload t).length).sum⟩) := by
  subst hd
  subst hi
  subst hn
  exact loadTriggers_pos parse payload Hparse ts pre suf

/-- Round-trip of a version-1 `wct` file. -/
theorem wct_load_save_v1 {CTT : Type} (payload : CTT → List Nat)
    (parse : BinaryStream → CTT × BinaryStream)
    (Hparse : ∀ (pre suf : List Nat) (t : CTT),
      parse ⟨pre ++ payload t ++ suf, pre.length⟩
        = (t, ⟨pre ++ payload t ++ suf, pre.length + (payload t).length⟩))
    (w : War3MapWct CTT) (hv : w.version = 1)
    (hcomm : ∀ c ∈ w.comment, 0 < c ∧ c < 256)
    (ht : w.trigger.isSome)
    (hcount : w.triggers.length < 4294967296)
    (hpb : ∀ t, ∀ b ∈ payload t, b < 256) :
    War3MapWct.load parse (War3MapWct.save payload w).data = w := by
  obtain ⟨ver, comm, trig, trigs⟩ := w
  obtain ⟨t, htr⟩ := Option.isSome_iff_exists.mp ht
  simp only at hv htr
  subst hv
  subst htr
  have hDform : (War3MapWct.save payload ⟨1, comm, some t, trigs⟩).data
      = int32ToBytes 1 ++ (comm ++ [0]) ++ payload t
        ++ uint32ToBytes trigs.length ++ (trigs.map payload).flatten := by
    rw [wct_save_data_v1 payload ⟨1, comm, some t, trigs⟩ rfl
      (fun c hc => (hcomm c hc).2) hpb]
    simp
  simp only [War3MapWct.load, BinaryStream.mk0]
  rw [hDform]
  rw [readInt32_at
    (int32ToBytes 1 ++ (comm ++ [0]) ++ payload t
      ++ uint32ToBytes trigs.length ++ (trigs.map payload).flatten)
    0 []
    (comm ++ [0] ++ (payload t ++ (uint32ToBytes trigs.length
      ++ (trigs.map payload).flatten)))
    1 (by simp) (by simp) (by norm_num) (by norm_num)]
  dsimp only
  rw [if_pos rfl]
  rw [readUntilNull_at
    (int32ToBytes 1 ++ (comm ++ [0]) ++ payload t
      ++ uint32ToBytes trigs.length ++ (trigs.map payload).flatten)
    (0 + 4) (int32ToBytes 1) comm
    (payload t ++ (uint32ToBytes trigs.length ++ (trigs.map payload).flatten))
    (by simp)
    (by simp only [List.length_append, List.length_cons, List.length_nil,
      int32ToBytes, uint32ToBytes, Int.toNat_ofNat]; try omega)
    (fun c hc => by have := (hcomm c hc).1; omega)]
  dsimp only
  rw [parse_at parse payload Hparse
    (int32ToBytes 1 ++ (comm ++ [0]) ++ payload t
      ++ uint32ToBytes trigs.length ++ (trigs.map payload).flatten)
    (0 + 4 + (comm.length + 1))
    (int32ToBytes 1 ++ (comm ++ [0]))
    (uint32ToBytes trigs.length ++ (trigs.map payload).flatten)
    t (by simp)
    (by simp only [List.length_append, List.length_cons, List.length_nil,
      int32ToBytes, uint32ToBytes]; try omega)]
  dsimp only
  rw [readUint32_at
    (int32ToBytes 1 ++ (comm ++ [0]) ++ payload t
      ++ uint32ToBytes trigs.length ++ (trigs.map payload).flatten)
    (0 + 4 + (comm.length + 1) + (payload t).length)
    (int32ToBytes 1 ++ (comm ++ [0]) ++ payload t)
    ((trigs.map payload).flatten)
    trigs.length (by simp)
    (by simp only [List.length_append, List.length_cons, List.length_nil,
      int32ToBytes, uint32ToBytes]; try omega)
    hcount]
  dsimp only
  rw [loadTriggers_at_pair parse payload Hparse trigs
    (int32ToBytes 1 ++ (comm ++ [0]) ++ payload t
      ++ uint32ToBytes trigs.length ++ (trigs.map payload).flatten)
    (0 + 4 + (comm.length + 1) + (payload t).length + 4)
    trigs.length
    (int32ToBytes 1 ++ (comm ++ [0]) ++ payload t ++ uint32ToBytes trigs.length)
    [] (by simp)
    (by simp only [List.length_append, List.length_cons, List.length_nil,
      int32ToBytes, uint32ToBytes]; try omega)
    rfl]

/-- Round-trip of a non-version-1 `wct` file (whose comment and trigger
still hold their constructed defaults). -/
theorem wct_load_save_other {CTT : Type} (payload : CTT → List Nat)
    (parse : BinaryStream → CTT × BinaryStream)
    (Hparse : ∀ (pre suf : List Nat) (t : CTT),
      parse ⟨pre ++ payload t ++ suf, pre.length⟩
        = (t, ⟨pre ++ payload t ++ suf, pre.length + (payload t).length⟩))
    (w : War3MapWct CTT) (hv : ¬(w.version = 1))
    (hlo : -2147483648 ≤ w.version) (hhi : w.version < 2147483648)
    (hcomm : w.comment = []) (htr : w.trigger = none)
    (hcount : w.triggers.length < 4294967296)
    (hpb : ∀ t, ∀ b ∈ payload t, b < 256) :
    War3MapWct.load parse (War3MapWct.save payload w).data = w := by
  obtain ⟨ver, comm, trig, trigs⟩ := w
  simp only at hv hlo hhi hcomm htr
  subst hcomm
  subst htr
  have hDform : (War3MapWct.save payload ⟨ver, [], none, trigs⟩).data
      = int32ToBytes ver ++ uint32ToBytes trigs.length
        ++ (trigs.map payload).flatten := by
    rw [wct_save_data_other payload ⟨ver, [], none, trigs⟩ hv hpb]
  simp only [War3MapWct.load, BinaryStream.mk0]
  rw [hDform]
  rw [readInt32_at
    (int32ToBytes ver ++ uint32ToBytes trigs.length ++ (trigs.map payload).flatten)
    0 []
    (uint32ToBytes trigs.length ++ (trigs.map payload).flatten)
    ver (by simp) (by simp) hlo hhi]
  dsimp only
  rw [if_neg hv]
  rw [readUint32_at
    (int32ToBytes ver ++ uint32ToBytes trigs.length ++ (trigs.map payload).flatten)
    (0 + 4) (int32ToBytes ver) ((trigs.map payload).flatten)
    trigs.length (by simp)
    (by simp only [List.length_append, List.length_cons, List.length_nil,
      int32ToBytes, uint32ToBytes]; try omega)
    hcount]
  dsimp only
  rw [loadTriggers_at_pair parse payload Hparse trigs
    (int32ToBytes ver ++ uint32ToBytes trigs.length ++ (trigs.map payload).flatten)
    (0 + 4 + 4) trigs.length
    (int32ToBytes ver ++ uint32ToBytes trigs.length) [] (by simp)
    (by simp only [List.length_append, List.length_cons, List.length_nil,
      int32ToBytes, uint32ToBytes]; try omega)
    rfl]

/-- Round-trip of a texture through the fixed 268-byte MDX record: write
into a fresh zero buffer, read back. -/
theorem texture_readMdx_writeMdx (t : Texture)
    (hlen : t.path.length ≤ 260)
    (hpath : ∀ c ∈ t.path, 0 < c ∧ c < 256)
    (hrid : t.replaceableId < 4294967296)
    (hflags : t.flags < 4294967296) :
    (Texture.readMdx (BinaryStream.mk0
      (Texture.writeMdx t (BinaryStream.mk0 (List.replicate 268 0))).data)).1
      = t := by
  obtain ⟨rid, path, flags⟩ := t
  simp only at hlen hpath hrid hflags
  have hpath256 : ∀ b ∈ path, b < 256 := fun b hb => (hpath b hb).2
  have hW : (Texture.writeMdx ⟨rid, path, flags⟩
        (BinaryStream.mk0 (List.replicate 268 0))).data
      = uint32ToBytes rid ++ path ++ List.replicate (260 - path.length) 0
        ++ uint32ToBytes flags := by
    simp only [Texture.writeMdx, BinaryStream.writeUint32, BinaryStream.write]
    rw [show (268 : Nat)
        = (uint32ToBytes rid).length + (path.length + (260 - path.length + 4))
      from by simp [uint32ToBytes]; omega]
    rw [writeBytes_step0 _ _ (uint32ToBytes_lt rid),
      writeBytes_step _ _ _ hpath256]
    simp only [BinaryStream.skip]
    have hstate : List.replicate (260 - path.length + 4) (0 : Nat)
        = List.replicate (260 - path.length) 0 ++ List.replicate 4 0 := by
      rw [List.replicate_add]
    rw [hstate, ← List.append_assoc ((uint32ToBytes rid ++ path))
      (List.replicate (260 - path.length) 0) (List.replicate 4 0)]
    have hidx : (uint32ToBytes rid ++ path).length + (260 - path.length)
        = ((uint32ToBytes rid ++ path) ++ List.replicate (260 - path.length) 0).length := by
      simp
      omega
    rw [hidx]
    have hsufix : ((uint32ToBytes rid ++ path) ++ List.replicate (260 - path.length) 0)
          ++ List.replicate 4 0
        = ((uint32ToBytes rid ++ path) ++ List.replicate (260 - path.length) 0)
          ++ List.replicate 4 0 ++ [] := by
      simp
    rw [hsufix, writeBytes_eq (uint32ToBytes flags) _ _ [] (by simp [uint32ToBytes])]
    rw [map_mod_self _ (uint32ToBytes_lt flags)]
    simp [List.append_assoc]
  simp only [Texture.readMdx]
  rw [hW]
  simp only [BinaryStream.mk0]
  rw [readUint32_at
    (uint32ToBytes rid ++ path ++ List.replicate (260 - path.length) 0
      ++ uint32ToBytes flags)
    0 []
    (path ++ (List.replicate (260 - path.length) 0 ++ uint32ToBytes flags))
    rid (by simp) (by simp) hrid]
  dsimp only
  have hpeek : BinaryStream.peek
      ⟨uint32ToBytes rid ++ path ++ List.replicate (260 - path.length) 0
        ++ uint32ToBytes flags, 0 + 4⟩ 260 false = path := by
    simp only [BinaryStream.peek, BinaryStream.u8]
    rw [range_map_getD_eq_take_drop _ (0 + 4) 260
      (by simp [uint32ToBytes]; omega)]
    have hdrop : (uint32ToBytes rid ++ path ++ List.replicate (260 - path.length) 0
          ++ uint32ToBytes flags).drop (0 + 4)
        = path ++ (List.replicate (260 - path.length) 0 ++ uint32ToBytes flags) := by
      rw [show (uint32ToBytes rid ++ path ++ List.replicate (260 - path.length) 0
            ++ uint32ToBytes flags)
          = uint32ToBytes rid
            ++ (path ++ (List.replicate (260 - path.length) 0 ++ uint32ToBytes flags))
        from by simp [List.append_assoc]]
      rw [show ((0 : Nat) + 4) = (uint32ToBytes rid).length from by simp [uint32ToBytes]]
      rw [List.drop_left]
    rw [hdrop]
    generalize hk : 260 - path.length = k
    rw [show (260 : Nat) = path.length + k from by omega, List.take_append]
    rw [List.take_left' (by simp : (List.replicate k (0 : Nat)).length = k)]
    rw [List.filter_append]
    have h1 : path.filter (fun b => false || decide (0 < b)) = path :=
      List.filter_eq_self.mpr (by intro x hx; simp [(hpath x hx).1])
    have h2 : (List.replicate k (0 : Nat)).filter
        (fun b => false || decide (0 < b)) = [] := by
      simp
    rw [h1, h2, List.append_nil]
  have hread : BinaryStream.read
      ⟨uint32ToBytes rid ++ path ++ List.replicate (260 - path.length) 0
        ++ uint32ToBytes flags, 0 + 4⟩ 260 false
      = (path, ⟨uint32ToBytes rid ++ path ++ List.replicate (260 - path.length) 0
          ++ uint32ToBytes flags, 0 + 4 + 260⟩) := by
    simp only [BinaryStream.read]
    rw [if_neg (by norm_num)]
    rw [hpeek]
    rfl
  rw [hread]
  dsimp only
  rw [readUint32_at
    (uint32ToBytes rid ++ path ++ List.replicate (260 - path.length) 0
      ++ uint32ToBytes flags)
    (0 + 4 + 260)
    (uint32ToBytes rid ++ path ++ List.replicate (260 - path.length) 0)
    [] flags (by simp)
    (by simp only [List.length_append, List.length_replicate, uint32ToBytes,
      List.length_cons, List.length_nil]; omega)
    hflags]

/-! ### Claim C2: round-trip identity -/

/-- C2, counterexample: a `wct` with version 0 and a non-empty comment
satisfies the claim's hypotheses (no nulls in the comment, a supported
non-1 version), yet `load(save(w))` is not `w` — a non-version-1 `save`
never serializes the comment, so it comes back as the constructed default
`''`. -/
theorem c2_roundtrip_counterexample :
    ¬(War3MapWct.load exampleWctParse
        (War3MapWct.save exampleWctPayload cexWct).data = cexWct) := by
  decide

/-- C2, amended: round-trip identity holds for every `wct` value whose
version is in signed-32-bit range, whose comment bytes are non-null, with a
non-null trigger when the version is 1, and — forced by the counterexample —
whose comment and trigger still hold their constructed defaults (`''` and
null) when the version is not 1; the nested `CustomTextTrigger`
representation is abstract, assumed (as the claim states) to round-trip.
Likewise `Texture.readMdx` applied to the bytes `t.writeMdx` writes into a
fresh zero buffer restores `replaceableId`, `path` (null-free, at most 260
bytes) and `flags` exactly. -/
theorem c2_load_save_roundtrip :
    (∀ (CTT : Type) (payload : CTT → List Nat)
       (parse : BinaryStream → CTT × BinaryStream),
      (∀ (pre suf : List Nat) (t : CTT),
        parse ⟨pre ++ payload t ++ suf, pre.length⟩
          = (t, ⟨pre ++ payload t ++ suf, pre.length + (payload t).length⟩)) →
      ∀ w : War3MapWct CTT,
        -2147483648 ≤ w.version → w.version < 2147483648 →
        (∀ c ∈ w.comment, 0 < c ∧ c < 256) →
        (w.version = 1 → w.trigger.isSome) →
        (¬(w.version = 1) → w.comment = [] ∧ w.trigger = none) →
        w.triggers.length < 4294967296 →
        (∀ t, ∀ b ∈ payload t, b < 256) →
        War3MapWct.load parse (War3MapWct.save payload w).data = w) ∧
    (∀ t : Texture, t.path.length ≤ 260 →
      (∀ c ∈ t.path, 0 < c ∧ c < 256) →
      t.replaceableId < 4294967296 → t.flags < 4294967296 →
      (Texture.readMdx (BinaryStream.mk0
        (Texture.writeMdx t (BinaryStream.mk0 (List.replicate 268 0))).data)).1
        = t) := by
  constructor
  · intro CTT payload parse Hparse w hlo hhi hcomm ht hother hcount hpb
    by_cases hv : w.version = 1
    · exact wct_load_save_v1 payload parse Hparse w hv hcomm (ht hv) hcount hpb
    · exact wct_load_save_other payload parse Hparse w hv hlo hhi
        (hother hv).1 (hother hv).2 hcount hpb
  · intro t h1 h2 h3 h4
    exact texture_readMdx_writeMdx t h1 h2 h3 h4

/-- Witness for C2's amended theorem: the concrete version-1 sample file
with the two-byte trigger representation, and the concrete texture. -/
theorem c2_load_save_roundtrip_witness :
    (War3MapWct.load exampleWctParse
        (War3MapWct.save exampleWctPayload exampleWct).data = exampleWct) ∧
    ((Texture.readMdx (BinaryStream.mk0
        (Texture.writeMdx exampleTexture
          (BinaryStream.mk0 (List.replicate 268 0))).data)).1
      = exampleTexture) :=
  ⟨c2_load_save_roundtrip.1 Unit exampleWctPayload exampleWctParse
      (by intro pre suf t
          simp [exampleWctParse, exampleWctPayload, BinaryStream.skip])
      exampleWct (by decide) (by decide) (by decide) (by decide) (by decide)
      (by decide) (by decide),
   c2_load_save_roundtrip.2 exampleTexture (by decide) (by decide) (by decide)
      (by decide)⟩

/-! ### Tokenizer lemmas -/

/-- A delimiter with no pending token just moves the scanner along. -/
theorem readAux_delim_skip (d : Char) (hd : delimChar d) (rest : List Char) :
    readAux (d :: rest) false false []
      = ((readAux rest false false []).1, (readAux rest false false []).2 + 1) := by
  rw [readAux]
  rw [if_neg (by simp), if_neg (by simp)]
  rw [if_pos (by simpa [delimChar] using hd)]
  rw [if_pos rfl]

/-- A brace with no pending token is returned immediately. -/
theorem readAux_brace (c : Char) (hc : c = lbrace ∨ c = rbrace)
    (rest : List Char) :
    readAux (c :: rest) false false [] = (some [c], 1) := by
  have hnd : ¬(c = ' ' ∨ c = ',' ∨ c = '\t' ∨ c = '\n' ∨ c = ':' ∨ c = '\r') := by
    rcases hc with h | h <;> subst h <;> decide
  rw [readAux]
  rw [if_neg (by simp), if_neg (by simp), if_neg (by simpa using hnd)]
  rw [if_pos (by simpa using hc)]
  rw [if_pos rfl]

/-- Accumulating a plain (non-slash) token up to a delimiter returns it,
consuming the token and the delimiter. -/
theorem readAux_token (d : Char) (hd : delimChar d) :
    ∀ (tok acc rest : List Char), ¬(acc ++ tok = []) →
    (∀ c ∈ tok, plainChar c ∧ ¬(c = '/')) →
    readAux (tok ++ d :: rest) false false acc
      = (some (acc ++ tok), tok.length + 1) := by
  intro tok
  induction tok with
  | nil =>
      intro acc rest hne _
      simp only [List.nil_append, List.append_nil] at hne ⊢
      rw [readAux]
      rw [if_neg (by simp), if_neg (by simp)]
      rw [if_pos (by simpa [delimChar] using hd)]
      rw [if_neg hne]
      simp
  | cons c cs ih =>
      intro acc rest hne hok
      have hc := hok c (by simp)
      obtain ⟨⟨hcd, hcl, hcr, hcq⟩, hcs⟩ := hc
      simp only [List.cons_append]
      rw [readAux]
      rw [if_neg (by simp), if_neg (by simp)]
      rw [if_neg (by simpa [delimChar] using hcd)]
      rw [if_neg (by simp [hcl, hcr])]
      rw [if_neg (by simp [hcs])]
      rw [if_neg (by simpa using hcq)]
      rw [ih (acc ++ [c]) rest (by simp) fun x hx => hok x (by simp [hx])]
      simp [List.append_assoc]
      try omega

/-- `read()` at an explicitly laid-out position. -/
theorem read_step (s : TokenStream) (pre suf : List Char)
    (hbuf : s.buffer = pre ++ suf) (hi : s.index = pre.length)
    (tok : Option (List Char)) (n : Nat)
    (hr : readAux suf false false [] = (tok, n)) :
    s.read = (tok, { s with index := s.index + n }) := by
  have hdrop : s.buffer.drop s.index = suf := by
    rw [hbuf, hi, List.drop_left]
  rw [TokenStream.read, hdrop, hr]

/-- A two-element pattern occurring in `xs ++ [c]` either already occurs in
`xs` or straddles the end. -/
theorem infix_pair_snoc {α : Type} (a b c : α) (xs : List α)
    (h : List.IsInfix [a, b] (xs ++ [c])) :
    List.IsInfix [a, b] xs ∨ (xs.getLast? = some a ∧ c = b) := by
  obtain ⟨s, t, hst⟩ := h
  rcases List.eq_nil_or_concat t with rfl | ⟨t', d, rfl⟩
  · right
    have h2 : (s ++ [a]) ++ [b] = xs ++ [c] := by
      simpa [List.append_assoc] using hst
    obtain ⟨h3, h4⟩ := List.append_inj' h2 (by simp)
    constructor
    · rw [← h3]
      simp [List.getLast?_concat]
    · simpa using h4.symm
  · left
    have h2 : (s ++ [a, b] ++ t') ++ [d] = xs ++ [c] := by
      simp only [List.concat_eq_append] at hst
      simpa [List.append_assoc] using hst
    obtain ⟨h3, _⟩ := List.append_inj' h2 (by simp)
    exact ⟨s, t', h3⟩

/-- The invariant of one `read()` scan: on a quote-free buffer, any token it
reports is a single brace or a non-empty run of plain characters with no
embedded `//`. -/
theorem readAux_shape :
    ∀ (rest : List Char) (ic : Bool) (token : List Char),
    (∀ c ∈ rest, ¬(c = '"')) →
    (ic = true → token = []) →
    (∀ c ∈ token, plainChar c) →
    ¬List.IsInfix ['/', '/'] token →
    (token.getLast? = some '/' → rest.head? ≠ some '/') →
    ∀ t, (readAux rest ic false token).1 = some t →
      t = [lbrace] ∨ t = [rbrace] ∨
        (¬(t = []) ∧ (∀ c ∈ t, plainChar c) ∧ ¬List.IsInfix ['/', '/'] t) := by
  intro rest
  induction rest with
  | nil =>
      intro ic token _ _ _ _ _ t ht
      simp [readAux] at ht
  | cons c cs ih =>
      intro ic token hq hic htok hinf hlast t ht
      cases ic with
      | true =>
          have htk := hic rfl
          subst htk
          rw [readAux, if_pos rfl] at ht
          exact ih _ [] (fun x hx => hq x (by simp [hx])) (fun _ => rfl)
            (by simp) (by simp) (by simp) t ht
      | false =>
          rw [readAux, if_neg (by simp), if_neg (by simp)] at ht
          by_cases hdel : (c = ' ' ∨ c = ',' ∨ c = '\t' ∨ c = '\n' ∨ c = ':'
              ∨ c = '\r')
          · rw [if_pos hdel] at ht
            by_cases htk : token = []
            · rw [if_pos htk] at ht
              subst htk
              exact ih false [] (fun x hx => hq x (by simp [hx]))
                (fun h => by simp at h) (by simp) (by simp) (by simp) t ht
            · rw [if_neg htk] at ht
              simp only at ht
              obtain rfl : token = t := by simpa using ht
              exact Or.inr (Or.inr ⟨htk, htok, hinf⟩)
          · rw [if_neg hdel] at ht
            by_cases hbr : (c = lbrace ∨ c = rbrace)
            · rw [if_pos hbr] at ht
              by_cases htk : token = []
              · rw [if_pos htk] at ht
                obtain rfl : [c] = t := by simpa using ht
                rcases hbr with h | h
                · exact Or.inl (by rw [h])
                · exact Or.inr (Or.inl (by rw [h]))
              · rw [if_neg htk] at ht
                obtain rfl : token = t := by simpa using ht
                exact Or.inr (Or.inr ⟨htk, htok, hinf⟩)
            · rw [if_neg hbr] at ht
              by_cases hsl : (c = '/' ∧ cs.head? = some '/')
              · rw [if_pos hsl] at ht
                by_cases htk : token = []
                · rw [if_pos htk] at ht
                  subst htk
                  exact ih true [] (fun x hx => hq x (by simp [hx]))
                    (fun _ => rfl) (by simp) (by simp) (by simp) t ht
                · rw [if_neg htk] at ht
                  obtain rfl : token = t := by simpa using ht
                  exact Or.inr (Or.inr ⟨htk, htok, hinf⟩)
              · rw [if_neg hsl, if_neg (hq c (by simp))] at ht
                have hplain : plainChar c := by
                  refine ⟨hdel, ?_, ?_, hq c (by simp)⟩
                  · intro h; exact hbr (Or.inl h)
                  · intro h; exact hbr (Or.inr h)
                have hinf' : ¬List.IsInfix ['/', '/'] (token ++ [c]) := by
                  intro h
                  rcases infix_pair_snoc '/' '/' c token h with h' | ⟨h1, h2⟩
                  · exact hinf h'
                  · have hc : ¬(c = '/') := by
                      intro hc
                      have := hlast h1
                      simp [hc] at this
                    exact hc h2
                have hlast' : (token ++ [c]).getLast? = some '/'
                    → cs.head? ≠ some '/' := by
                  intro h
                  have hcs : c = '/' := by
                    simpa [List.getLast?_concat] using h
                  intro hh
                  exact hsl ⟨hcs, hh⟩
                exact ih false (token ++ [c]) (fun x hx => hq x (by simp [hx]))
                  (fun h => by simp at h)
                  (fun x hx => by
                    rcases List.mem_append.mp hx with h | h
                    · exact htok x h
                    · obtain rfl : x = c := by simpa using h
                      exact hplain)
                  hinf' hlast' t ht

/-- A buffer that is one single plain token with no trailing delimiter is
scanned to its end and reported as end-of-input — the pending token is
dropped. -/
theorem readAux_all_plain :
    ∀ (t acc : List Char), (∀ c ∈ t, plainChar c ∧ ¬(c = '/')) →
    (readAux t false false acc).1 = none := by
  intro t
  induction t with
  | nil => intro acc _; rfl
  | cons c cs ih =>
      intro acc hok
      obtain ⟨⟨hcd, hcl, hcr, hcq⟩, hcs⟩ := hok c (by simp)
      rw [readAux, if_neg (by simp), if_neg (by simp),
        if_neg (by simpa [delimChar] using hcd),
        if_neg (by simp [hcl, hcr]), if_neg (by simp [hcs]),
        if_neg (by simpa using hcq)]
      exact ih (acc ++ [c]) fun x hx => hok x (by simp [hx])

/-! ### Claim C6: the exact token sequence -/

/-- C6: on the input `Header "A String" {\n\tName Value, // A Comment\n}`,
sequential `read()` calls yield exactly `Header`, `A String`, `{`, `Name`,
`Value`, `}`, and then end-of-input; the comment, the comma and all
whitespace yield no tokens. -/
theorem c6_token_sequence :
    ((TokenStream.mk0 c6Input).read).1 = some "Header".toList ∧
    ((TokenStream.mk0 c6Input).read).2.read.1 = some "A String".toList ∧
    ((TokenStream.mk0 c6Input).read).2.read.2.read.1 = some [lbrace] ∧
    ((TokenStream.mk0 c6Input).read).2.read.2.read.2.read.1
      = some "Name".toList ∧
    ((TokenStream.mk0 c6Input).read).2.read.2.read.2.read.2.read.1
      = some "Value".toList ∧
    ((TokenStream.mk0 c6Input).read).2.read.2.read.2.read.2.read.2.read.1
      = some [rbrace] ∧
    ((TokenStream.mk0 c6Input).read).2.read.2.read.2.read.2.read.2.read.2.read.1
      = none := by
  decide

/-! ### Claim C5: what `read()` can return -/

/-- C5, counterexample: on the input `abc` — a token running to the very
end of the input with no trailing delimiter — `read()` signals end-of-input
and the pending token is dropped, not returned as the claim states. -/
theorem c5_trailing_token_counterexample :
    ((TokenStream.mk0 "abc".toList).read).1 = none ∧
    ¬(((TokenStream.mk0 "abc".toList).read).1 = some "abc".toList) := by
  decide

/-- C5, amended: on a quote-free buffer, at every stream position, `read()`
returns either end-of-input, a single `{` or `}`, or a non-empty token
containing no whitespace/comma/colon, no brace, no quote, and no `//` — so
whitespace, commas, colons and line comments are never emitted as tokens;
however, a token whose characters run to the very end of the input with no
trailing delimiter is dropped: `read()` signals end-of-input instead of
returning it. -/
theorem c5_read_token_invariant :
    (∀ (s : TokenStream), (∀ c ∈ s.buffer, ¬(c = '"')) →
      ∀ t, (s.read).1 = some t →
        t = [lbrace] ∨ t = [rbrace] ∨
          (¬(t = []) ∧ (∀ c ∈ t, plainChar c) ∧
            ¬List.IsInfix ['/', '/'] t)) ∧
    (∀ t : List Char, ¬(t = []) → (∀ c ∈ t, plainChar c ∧ ¬(c = '/')) →
      ((TokenStream.mk0 t).read).1 = none) := by
  constructor
  · intro s hq t ht
    exact readAux_shape (s.buffer.drop s.index) false []
      (fun c hc => hq c (List.drop_subset _ _ hc)) (fun _ => rfl)
      (by simp) (by simp) (by simp) t ht
  · intro t _ h2
    exact readAux_all_plain t [] h2

/-- Witness for C5's amended theorem: the buffer `ab ` (token plus trailing
space) for the shape invariant, and the buffer `xy` for the dropped
trailing token. -/
theorem c5_read_token_invariant_witness :
    (∀ c ∈ (TokenStream.mk0 "ab ".toList).buffer, ¬(c = '"')) ∧
    (((TokenStream.mk0 "ab ".toList).read).1 = some "ab".toList) ∧
    ("ab".toList = [lbrace] ∨ "ab".toList = [rbrace] ∨
      (¬("ab".toList = []) ∧ (∀ c ∈ "ab".toList, plainChar c) ∧
        ¬List.IsInfix ['/', '/'] "ab".toList)) ∧
    (¬("xy".toList = []) ∧ (∀ c ∈ "xy".toList, plainChar c ∧ ¬(c = '/')) ∧
      ((TokenStream.mk0 "xy".toList).read).1 = none) :=
  ⟨by decide, by decide,
   c5_read_token_invariant.1 (TokenStream.mk0 "ab ".toList) (by decide)
     "ab".toList (by decide),
   by decide, by decide,
   c5_read_token_invariant.2 "xy".toList (by decide) (by decide)⟩

/-! ### Claim C7: color swizzle symmetry -/

/-- C7: writing a 3-scalar color with `writeColor` (which emits indices 2,
1, 0 of the view) and reading the emitted line back — the name token
consumed by the caller, then `readColor` (which stores the three file
scalars into indices 2, 1, 0) — restores the color unchanged: the
externally observable round-trip is the identity.  The host
number-formatting and -parsing pair is abstract, assumed inverse, and
assumed to print delimiter-free non-empty text. -/
theorem c7_color_swizzle_roundtrip :
    ∀ (α : Type) (numToStr : α → List Char) (parseF : List Char → α),
    (∀ x, parseF (numToStr x) = x) →
    (∀ x, ¬(numToStr x = []) ∧ ∀ c ∈ numToStr x, plainChar c ∧ ¬(c = '/')) →
    ∀ (name : List Char) (v : α × α × α),
      ¬(name = []) → (∀ c ∈ name, plainChar c ∧ ¬(c = '/')) →
      (((TokenStream.mk0
          (TokenStream.writeColor numToStr (TokenStream.mk0 []) name v).buffer).read).1
        = some name) ∧
      ((TokenStream.readColor parseF
          ((TokenStream.mk0
            (TokenStream.writeColor numToStr (TokenStream.mk0 []) name v).buffer).read).2).1
        = v) := by
  intro α numToStr parseF hinv hplain name v hn hnp
  obtain ⟨v0, v1, v2⟩ := v
  have hbuf : (TokenStream.writeColor numToStr (TokenStream.mk0 []) name
        (v0, v1, v2)).buffer
      = name ++ ' ' :: (lbrace :: ' ' :: (numToStr v2 ++ ',' :: ' '
          :: numToStr v1 ++ ',' :: ' ' :: numToStr v0 ++ ' ' :: rbrace
          :: [','])) ++ ['\n'] := by
    simp [TokenStream.writeColor, TokenStream.writeLine, TokenStream.mk0,
      TokenStream.colorBody]
  rw [hbuf]
  have h1 : (TokenStream.mk0 (name ++ ' ' :: (lbrace :: ' ' :: (numToStr v2
        ++ ',' :: ' ' :: numToStr v1 ++ ',' :: ' ' :: numToStr v0 ++ ' '
        :: rbrace :: [','])) ++ ['\n'])).read
      = (some name, ⟨name ++ ' ' :: (lbrace :: ' ' :: (numToStr v2 ++ ','
          :: ' ' :: numToStr v1 ++ ',' :: ' ' :: numToStr v0 ++ ' '
          :: rbrace :: [','])) ++ ['\n'], 0 + (name.length + 1), 0⟩) := by
    refine read_step _ []
      (name ++ ' ' :: (lbrace :: ' ' :: (numToStr v2 ++ ',' :: ' '
        :: numToStr v1 ++ ',' :: ' ' :: numToStr v0 ++ ' ' :: rbrace
        :: [','])) ++ ['\n'])
      (by simp [TokenStream.mk0]) (by simp [TokenStream.mk0]) _ _ ?_
    have h := readAux_token ' ' (by decide) name []
      ((lbrace :: ' ' :: (numToStr v2 ++ ',' :: ' ' :: numToStr v1 ++ ','
        :: ' ' :: numToStr v0 ++ ' ' :: rbrace :: [','])) ++ ['\n'])
      (by simpa using hn) hnp
    simpa [List.append_assoc] using h
  refine ⟨by rw [h1], ?_⟩
  rw [h1]
  dsimp only
  simp only [TokenStream.readColor, TokenStream.readFloat]
  have h2 : (⟨name ++ ' ' :: (lbrace :: ' ' :: (numToStr v2 ++ ',' :: ' '
        :: numToStr v1 ++ ',' :: ' ' :: numToStr v0 ++ ' ' :: rbrace
        :: [','])) ++ ['\n'], 0 + (name.length + 1), 0⟩ : TokenStream).read
      = (some [lbrace], ⟨name ++ ' ' :: (lbrace :: ' ' :: (numToStr v2 ++ ','
          :: ' ' :: numToStr v1 ++ ',' :: ' ' :: numToStr v0 ++ ' '
          :: rbrace :: [','])) ++ ['\n'], 0 + (name.length + 1) + 1, 0⟩) := by
    refine read_step _ (name ++ [' ']) ((lbrace :: ' ' :: (numToStr v2 ++ ','
        :: ' ' :: numToStr v1 ++ ',' :: ' ' :: numToStr v0 ++ ' ' :: rbrace
        :: [','])) ++ ['\n'])
      (by simp [List.append_assoc]) (by simp) _ _ ?_
    exact readAux_brace lbrace (Or.inl rfl) _
  rw [h2]
  dsimp only
  have h3 : (⟨name ++ ' ' :: (lbrace :: ' ' :: (numToStr v2 ++ ',' :: ' '
        :: numToStr v1 ++ ',' :: ' ' :: numToStr v0 ++ ' ' :: rbrace
        :: [','])) ++ ['\n'], 0 + (name.length + 1) + 1, 0⟩ : TokenStream).read
      = (some (numToStr v2), ⟨name ++ ' ' :: (lbrace :: ' ' :: (numToStr v2
          ++ ',' :: ' ' :: numToStr v1 ++ ',' :: ' ' :: numToStr v0 ++ ' '
          :: rbrace :: [','])) ++ ['\n'],
          0 + (name.length + 1) + 1 + ((numToStr v2).length + 1 + 1), 0⟩) := by
    refine read_step _ (name ++ [' '] ++ [lbrace]) (' ' :: (numToStr v2
        ++ ',' :: (' ' :: numToStr v1 ++ ',' :: ' ' :: numToStr v0 ++ ' '
        :: rbrace :: ',' :: ['\n'])))
      (by simp [List.append_assoc]) (by simp; try omega) _ _ ?_
    rw [readAux_delim_skip ' ' (by decide),
      readAux_token ',' (by decide) (numToStr v2) []
        (' ' :: numToStr v1 ++ ',' :: ' ' :: numToStr v0 ++ ' ' :: rbrace
          :: ',' :: ['\n'])
        (by simpa using (hplain v2).1) (hplain v2).2]
    simp
  rw [h3]
  dsimp only
  have h4 : (⟨name ++ ' ' :: (lbrace :: ' ' :: (numToStr v2 ++ ',' :: ' '
        :: numToStr v1 ++ ',' :: ' ' :: numToStr v0 ++ ' ' :: rbrace
        :: [','])) ++ ['\n'],
        0 + (name.length + 1) + 1 + ((numToStr v2).length + 1 + 1), 0⟩
        : TokenStream).read
      = (some (numToStr v1), ⟨name ++ ' ' :: (lbrace :: ' ' :: (numToStr v2
          ++ ',' :: ' ' :: numToStr v1 ++ ',' :: ' ' :: numToStr v0 ++ ' '
          :: rbrace :: [','])) ++ ['\n'],
          0 + (name.length + 1) + 1 + ((numToStr v2).length + 1 + 1)
            + ((numToStr v1).length + 1 + 1), 0⟩) := by
    refine read_step _ (name ++ [' '] ++ [lbrace] ++ [' '] ++ numToStr v2
        ++ [','])
      (' ' :: (numToStr v1 ++ ',' :: (' ' :: numToStr v0 ++ ' ' :: rbrace
        :: ',' :: ['\n'])))
      (by simp [List.append_assoc]) (by simp; try omega) _ _ ?_
    rw [readAux_delim_skip ' ' (by decide),
      readAux_token ',' (by decide) (numToStr v1) []
        (' ' :: numToStr v0 ++ ' ' :: rbrace :: ',' :: ['\n'])
        (by simpa using (hplain v1).1) (hplain v1).2]
    simp
  rw [h4]
  dsimp only
  have h5 : (⟨name ++ ' ' :: (lbrace :: ' ' :: (numToStr v2 ++ ',' :: ' '
        :: numToStr v1 ++ ',' :: ' ' :: numToStr v0 ++ ' ' :: rbrace
        :: [','])) ++ ['\n'],
        0 + (name.length + 1) + 1 + ((numToStr v2).length + 1 + 1)
          + ((numToStr v1).length + 1 + 1), 0⟩ : TokenStream).read
      = (some (numToStr v0), ⟨name ++ ' ' :: (lbrace :: ' ' :: (numToStr v2
          ++ ',' :: ' ' :: numToStr v1 ++ ',' :: ' ' :: numToStr v0 ++ ' '
          :: rbrace :: [','])) ++ ['\n'],
          0 + (name.length + 1) + 1 + ((numToStr v2).length + 1 + 1)
            + ((numToStr v1).length + 1 + 1)
            + ((numToStr v0).length + 1 + 1), 0⟩) := by
    refine read_step _ (name ++ [' '] ++ [lbrace] ++ [' '] ++ numToStr v2
        ++ [','] ++ [' '] ++ numToStr v1 ++ [','])
      (' ' :: (numToStr v0 ++ ' ' :: (rbrace :: ',' :: ['\n'])))
      (by simp [List.append_assoc]) (by simp; try omega) _ _ ?_
    rw [readAux_delim_skip ' ' (by decide),
      readAux_token ' ' (by decide) (numToStr v0) []
        (rbrace :: ',' :: ['\n'])
        (by simpa using (hplain v0).1) (hplain v0).2]
    simp
  rw [h5]
  dsimp only
  simp only [Option.getD_some]
  rw [hinv v2, hinv v1, hinv v0]

/-- Witness for C7 at the trivial `Unit` scalar codec and the name
`Color`. -/
theorem c7_color_swizzle_roundtrip_witness :
    (∀ x, exampleParseF (exampleNumToStr x) = x) ∧
    (∀ x, ¬(exampleNumToStr x = []) ∧
      ∀ c ∈ exampleNumToStr x, plainChar c ∧ ¬(c = '/')) ∧
    ¬("Color".toList = []) ∧
    (∀ c ∈ "Color".toList, plainChar c ∧ ¬(c = '/')) ∧
    ((((TokenStream.mk0 (TokenStream.writeColor exampleNumToStr
          (TokenStream.mk0 []) "Color".toList ((), (), ())).buffer).read).1
        = some "Color".toList) ∧
      ((TokenStream.readColor exampleParseF
          ((TokenStream.mk0 (TokenStream.writeColor exampleNumToStr
            (TokenStream.mk0 []) "Color".toList ((), (), ())).buffer).read).2).1
        = ((), (), ()))) :=
  ⟨by decide, by decide, by decide, by decide,
   c7_color_swizzle_roundtrip Unit exampleNumToStr exampleParseF (by decide)
     (by decide) "Color".toList ((), (), ()) (by decide) (by decide)⟩

/-! ### Claim C9: unrecognized text tokens throw -/

/-- C9: whenever the next token of the stream is not in the loader's
recognized key set (and is not the block-closing `}`), the loader returns
the throwing branch immediately, with a message naming the offending token
— and, for `Camera`, the camera's name — rather than any partially-loaded
success state; this holds for `Texture.readMdl` (recognized keys: `Image`,
`ReplaceableId`, `WrapWidth`, `WrapHeight`) and for both block levels of
`Camera.readMdl`. -/
theorem c9_unknown_token_throws :
    (∀ (parseI : List Char → Nat) (fuel : Nat) (t : Texture)
       (s s' : TokenStream) (tok : List Char),
      s.read = (some tok, s') →
      ¬(tok = [rbrace]) → ¬(tok = "Image".toList) →
      ¬(tok = "ReplaceableId".toList) → ¬(tok = "WrapWidth".toList) →
      ¬(tok = "WrapHeight".toList) →
      texReadMdlLoop parseI (fuel + 1) t s = .error (textureErrMsg tok)) ∧
    (∀ (parseF : List Char → Nat)
       (readAnim : TokenStream → List Char → TokenStream)
       (fuel : Nat) (cam : Camera) (s s' : TokenStream) (tok : List Char),
      s.read = (some tok, s') →
      ¬(tok = [rbrace]) → ¬(tok = "Position".toList) →
      ¬(tok = "Translation".toList) → ¬(tok = "Rotation".toList) →
      ¬(tok = "FieldOfView".toList) → ¬(tok = "FarClip".toList) →
      ¬(tok = "NearClip".toList) → ¬(tok = "Target".toList) →
      cameraReadMdlLoop parseF readAnim (fuel + 1) cam s
        = .error (cameraErrMsg cam.name tok)) ∧
    (∀ (parseF : List Char → Nat)
       (readAnim : TokenStream → List Char → TokenStream)
       (fuel : Nat) (cam : Camera) (s s' : TokenStream) (tok : List Char),
      s.read = (some tok, s') →
      ¬(tok = [rbrace]) → ¬(tok = "Position".toList) →
      ¬(tok = "Translation".toList) →
      cameraTargetLoop parseF readAnim (fuel + 1) cam s
        = .error (cameraTargetErrMsg cam.name tok)) := by
  refine ⟨?_, ?_, ?_⟩
  · intro parseI fuel t s s' tok hread h1 h2 h3 h4 h5
    rw [texReadMdlLoop, hread]
    dsimp only
    rw [if_neg h1, if_neg h2, if_neg h3, if_neg h4, if_neg h5]
  · intro parseF readAnim fuel cam s s' tok hread h1 h2 h3 h4 h5 h6 h7 h8
    rw [cameraReadMdlLoop, hread]
    dsimp only
    rw [if_neg h1, if_neg h2, if_neg h3, if_neg h4, if_neg h5, if_neg h6,
      if_neg h7, if_neg h8]
  · intro parseF readAnim fuel cam s s' tok hread h1 h2 h3
    rw [cameraTargetLoop, hread]
    dsimp only
    rw [if_neg h1, if_neg h2, if_neg h3]

/-- Witness for C9: the stream `Foo ` whose next token is the unrecognized
`Foo`, against a default texture and camera. -/
theorem c9_unknown_token_throws_witness :
    ((TokenStream.mk0 "Foo ".toList).read
        = (some "Foo".toList, ⟨"Foo ".toList, 4, 0⟩) ∧
      texReadMdlLoop (fun _ => 0) 1 ⟨0, [], 0⟩ (TokenStream.mk0 "Foo ".toList)
        = .error (textureErrMsg "Foo".toList)) ∧
    (cameraReadMdlLoop (fun _ => 0) (fun s _ => s) 1 ⟨[], [], 0, 0, 0, []⟩
        (TokenStream.mk0 "Foo ".toList)
        = .error (cameraErrMsg [] "Foo".toList)) ∧
    (cameraTargetLoop (fun _ => 0) (fun s _ => s) 1 ⟨[], [], 0, 0, 0, []⟩
        (TokenStream.mk0 "Foo ".toList)
        = .error (cameraTargetErrMsg [] "Foo".toList)) :=
  ⟨⟨by decide,
    c9_unknown_token_throws.1 (fun _ => 0) 0 ⟨0, [], 0⟩
      (TokenStream.mk0 "Foo ".toList) ⟨"Foo ".toList, 4, 0⟩ "Foo".toList
      (by decide) (by decide) (by decide) (by decide) (by decide) (by decide)⟩,
   c9_unknown_token_throws.2.1 (fun _ => 0) (fun s _ => s) 0 ⟨[], [], 0, 0, 0, []⟩
     (TokenStream.mk0 "Foo ".toList) ⟨"Foo ".toList, 4, 0⟩ "Foo".toList
     (by decide) (by decide) (by decide) (by decide) (by decide) (by decide)
     (by decide) (by decide) (by decide),
   c9_unknown_token_throws.2.2 (fun _ => 0) (fun s _ => s) 0 ⟨[], [], 0, 0, 0, []⟩
     (TokenStream.mk0 "Foo ".toList) ⟨"Foo ".toList, 4, 0⟩ "Foo".toList
     (by decide) (by decide) (by decide) (by decide)⟩

/-! ### Claim C10: the out-of-range first keyframe of a global sequence -/

/-- C10: for a global-sequence track over `[0, end]` whose first keyframe
sits beyond `end`, that keyframe is included in the sequence's keyframe
list; when it is the only keyframe retained, the sequence is constant with
that keyframe's value.  Only the first-key-outside case receives this
treatment: with the first key not beyond `end` (or with a non-global
sequence), an empty in-range set retains nothing and the sequence falls
back to the default value. -/
theorem c10_global_sequence_first_key_outside :
    (∀ (defval : MdxValue) (endFrame : Int) (kfs : List MdxKeyframe)
       (k0 : MdxKeyframe),
      kfs.head? = some k0 → endFrame < k0.frame →
      k0 ∈ (mkMdxSdSequence defval 0 endFrame kfs true).keyframes) ∧
    (∀ (defval : MdxValue) (endFrame : Int) (kfs : List MdxKeyframe)
       (k0 : MdxKeyframe),
      kfs.head? = some k0 → endFrame < k0.frame →
      kfs.filter (inRange 0 endFrame) = [] →
      (mkMdxSdSequence defval 0 endFrame kfs true).keyframes = [k0] ∧
      (mkMdxSdSequence defval 0 endFrame kfs true).constant = true ∧
      (mkMdxSdSequence defval 0 endFrame kfs true).value = some k0.value) ∧
    (∀ (defval : MdxValue) (endFrame : Int) (kfs : List MdxKeyframe)
       (k0 : MdxKeyframe),
      kfs.head? = some k0 → ¬(endFrame < k0.frame) →
      kfs.filter (inRange 0 endFrame) = [] →
      (mkMdxSdSequence defval 0 endFrame kfs true).keyframes = [] ∧
      (mkMdxSdSequence defval 0 endFrame kfs true).constant = true ∧
      (mkMdxSdSequence defval 0 endFrame kfs true).value = some defval) ∧
    (∀ (defval : MdxValue) (start endFrame : Int) (kfs : List MdxKeyframe),
      kfs.filter (inRange start endFrame) = [] →
      (mkMdxSdSequence defval start endFrame kfs false).keyframes = [] ∧
      (mkMdxSdSequence defval start endFrame kfs false).constant = true ∧
      (mkMdxSdSequence defval start endFrame kfs false).value = some defval) := by
  refine ⟨?_, ?_, ?_, ?_⟩
  · intro defval endFrame kfs k0 hk hout
    simp only [mkMdxSdSequence, hk]
    rw [if_pos hout]
    rcases hF : kfs.filter (inRange 0 endFrame) with _ | ⟨f, fs⟩
    · simp
    · simp only [ite_true, List.cons_append, List.singleton_append,
        List.nil_append]
      split
      · simp
      · split
        · split
          · simp
          · simp
        · split
          · simp
          · simp
  · intro defval endFrame kfs k0 hk hout hF
    simp only [mkMdxSdSequence, hk, hF]
    rw [if_pos hout]
    simp
  · intro defval endFrame kfs k0 hk hout hF
    simp only [mkMdxSdSequence, hk, hF]
    rw [if_neg hout]
    simp
  · intro defval start endFrame kfs hF
    simp only [mkMdxSdSequence, hF]
    simp

/-- Witness for C10 at a concrete track: one keyframe at frame 5 on the
range `[0, 3]` of a global sequence, plus the contrasting in-range and
non-global cases. -/
theorem c10_global_sequence_first_key_outside_witness :
    (([⟨5, MdxValue.scalar 7, MdxValue.scalar 0, MdxValue.scalar 0⟩]
        : List MdxKeyframe).head?
      = some ⟨5, MdxValue.scalar 7, MdxValue.scalar 0, MdxValue.scalar 0⟩) ∧
    ((3 : Int) < 5) ∧
    (([⟨5, MdxValue.scalar 7, MdxValue.scalar 0, MdxValue.scalar 0⟩]
        : List MdxKeyframe).filter (inRange 0 3) = []) ∧
    ((mkMdxSdSequence (MdxValue.scalar 0) 0 3
        [⟨5, MdxValue.scalar 7, MdxValue.scalar 0, MdxValue.scalar 0⟩]
        true).keyframes
      = [⟨5, MdxValue.scalar 7, MdxValue.scalar 0, MdxValue.scalar 0⟩] ∧
     (mkMdxSdSequence (MdxValue.scalar 0) 0 3
        [⟨5, MdxValue.scalar 7, MdxValue.scalar 0, MdxValue.scalar 0⟩]
        true).constant = true ∧
     (mkMdxSdSequence (MdxValue.scalar 0) 0 3
        [⟨5, MdxValue.scalar 7, MdxValue.scalar 0, MdxValue.scalar 0⟩]
        true).value = some (MdxValue.scalar 7)) ∧
    ((mkMdxSdSequence (MdxValue.scalar 0) 0 3
        [⟨9, MdxValue.scalar 7, MdxValue.scalar 0, MdxValue.scalar 0⟩]
        false).keyframes = [] ∧
     (mkMdxSdSequence (MdxValue.scalar 0) 0 3
        [⟨9, MdxValue.scalar 7, MdxValue.scalar 0, MdxValue.scalar 0⟩]
        false).constant = true ∧
     (mkMdxSdSequence (MdxValue.scalar 0) 0 3
        [⟨9, MdxValue.scalar 7, MdxValue.scalar 0, MdxValue.scalar 0⟩]
        false).value = some (MdxValue.scalar 0)) :=
  ⟨by decide, by decide, by decide,
   c10_global_sequence_first_key_outside.2.1 (MdxValue.scalar 0) 3
     [⟨5, MdxValue.scalar 7, MdxValue.scalar 0, MdxValue.scalar 0⟩]
     ⟨5, MdxValue.scalar 7, MdxValue.scalar 0, MdxValue.scalar 0⟩
     (by decide) (by decide) (by decide),
   c10_global_sequence_first_key_outside.2.2.2 (MdxValue.scalar 0) 0 3
     [⟨9, MdxValue.scalar 7, MdxValue.scalar 0, MdxValue.scalar 0⟩]
     (by decide)⟩

end MdxViewer
